import Mathlib

/-!
Verification of the tastemaker preference-extraction and rule-audit pipeline.

This file gives a shallow embedding, in Lean 4, of the core functions of the
repository's backend:

  * `audit_routes.py`   — `parse_color`, `colors_match`, contrast computation,
    `parse_size`, `check_rule`, `apply_rules_to_extracted_values`, and the score
    formula of `audit_screenshot`;
  * `pattern_analyzer.py` — `analyze_territory_mapping`,
    `identify_high_signal_properties`, `should_transition_to_dimension_isolation`,
    `aggregate_property_preferences`;
  * `rule_synthesizer.py` — `synthesize_rules_from_patterns`,
    `decompose_complex_value`, `infer_component_type`, `parse_stated_preference`.

Modelling conventions: Python strings are `String`; Python floats are modelled
as exact rationals `ℚ`; Python `None` is `Option.none`; JSON decoding at the
boundaries is modelled by already-structured inputs (style maps are association
lists in dict insertion order, with the values in their `str()` form); Python
dict iteration order (insertion order) is preserved by using ordered lists
throughout.
-/

/-- Python's substring test `needle in hay`. -/
def strContains (hay needle : String) : Bool :=
  decide (needle.data <:+: hay.data)

/-- Python's `str.lower()`, modelled per character. -/
def pyLower (s : String) : String := String.mk (s.data.map Char.toLower)

/-- Python's `str.strip()`: whitespace removed from both ends. -/
def pyStrip (s : String) : String :=
  String.mk (((s.data.dropWhile Char.isWhitespace).reverse.dropWhile Char.isWhitespace).reverse)

/-- Python's `s.split(c)` for a one-character separator; `"".split(c) = [""]`. -/
def splitOnChar (c : Char) (s : String) : List String :=
  (s.data.foldr (fun ch acc =>
    match acc with
    | [] => [[ch]]
    | g :: gs => if ch = c then [] :: g :: gs else (ch :: g) :: gs) [[]]).map String.mk

/-- Python's `s.startswith(p)`. -/
def pyStartsWith (s p : String) : Bool := p.data.isPrefixOf s.data

/-- Value of one hexadecimal digit, or `none` for a non-hex character. -/
def hexDigitVal (c : Char) : Option Nat :=
  if '0' ≤ c ∧ c ≤ '9' then some (c.toNat - '0'.toNat)
  else if 'a' ≤ c ∧ c ≤ 'f' then some (c.toNat - 'a'.toNat + 10)
  else if 'A' ≤ c ∧ c ≤ 'F' then some (c.toNat - 'A'.toNat + 10)
  else none

/-- Value of a nonempty all-hex-digit character list, most significant first. -/
def hexDigitsVal (cs : List Char) : Option Nat :=
  if cs.isEmpty then none
  else cs.foldl (fun acc c => acc.bind fun a => (hexDigitVal c).map fun d => a * 16 + d)
    (some 0)

/-- Python's `int(s, 16)` as used on the two-character slices in `parse_color`:
whitespace is stripped, an optional single sign is allowed, then nonempty hex
digits. Returns `none` where Python raises `ValueError`. -/
def pyIntHex (s : String) : Option Int :=
  match (pyStrip s).data with
  | '+' :: rest => (hexDigitsVal rest).map (fun n => (n : Int))
  | '-' :: rest => (hexDigitsVal rest).map (fun n => -(n : Int))
  | rest => (hexDigitsVal rest).map (fun n => (n : Int))

/-- Decimal digit run at the head of a character list, with the remainder. -/
def digitsSpan (cs : List Char) : List Char × List Char :=
  (cs.takeWhile Char.isDigit, cs.dropWhile Char.isDigit)

/-- Natural number denoted by a decimal digit list, most significant first. -/
def digitsToNat (ds : List Char) : Nat :=
  ds.foldl (fun a c => a * 10 + (c.toNat - '0'.toNat)) 0

/-- The regex branch of `parse_color`: Python's
`re.match(r'rgb\((\d+),\s*(\d+),\s*(\d+)\)', color_str)`. `re.match` anchors at
the start only, so trailing characters after the closing parenthesis are
ignored. -/
def parse_rgb_prefix (s : String) : Option (Int × Int × Int) :=
  match s.data with
  | 'r' :: 'g' :: 'b' :: '(' :: rest =>
    let (d1, rest1) := digitsSpan rest
    if d1.isEmpty then none else
    match rest1 with
    | ',' :: rest2 =>
      let rest2w := rest2.dropWhile (fun c => c.isWhitespace)
      let (d2, rest3) := digitsSpan rest2w
      if d2.isEmpty then none else
      match rest3 with
      | ',' :: rest4 =>
        let rest4w := rest4.dropWhile (fun c => c.isWhitespace)
        let (d3, rest5) := digitsSpan rest4w
        if d3.isEmpty then none else
        match rest5 with
        | ')' :: _ => some ((digitsToNat d1 : Int), (digitsToNat d2 : Int), (digitsToNat d3 : Int))
        | _ => none
      | _ => none
    | _ => none
  | _ => none

/-- `parse_color` of `audit_routes.py`: parse a color string to an RGB tuple.
`lstrip('#')` drops every leading `#`; a 3-digit hex form doubles each digit; a
6-digit hex form parses the three 2-character slices with `int(_, 16)` and
yields `none` on a `ValueError`; any other hex length falls through to the
`rgb(r, g, b)` regex on the original string. -/
def parse_color (color_str : String) : Option (Int × Int × Int) :=
  if color_str = "" then none
  else if pyStartsWith color_str "#" then
    let hex0 := color_str.data.dropWhile (fun c => c = '#')
    let hex := if hex0.length = 3 then hex0.flatMap (fun c => [c, c]) else hex0
    if hex.length = 6 then
      match pyIntHex (String.mk (hex.take 2)), pyIntHex (String.mk ((hex.drop 2).take 2)),
          pyIntHex (String.mk (hex.drop 4)) with
      | some r, some g, some b => some (r, g, b)
      | _, _, _ => none
    else parse_rgb_prefix color_str
  else parse_rgb_prefix color_str

/-- `colors_match` of `audit_routes.py`: two colors match when every channel
differs by at most `tolerance`; if either side fails to parse, fall back to
case-insensitive string equality. The Python default `tolerance=20` is passed
explicitly by every caller in this file. -/
def colors_match (expected found : String) (tolerance : Int) : Bool :=
  match parse_color expected, parse_color found with
  | some e, some f =>
      decide (|e.1 - f.1| ≤ tolerance ∧ |e.2.1 - f.2.1| ≤ tolerance ∧ |e.2.2 - f.2.2| ≤ tolerance)
  | _, _ => pyLower expected == pyLower found

/-- One Newton step for the fifth root of `x` at approximation `y`. -/
def rootFifthStep (x y : ℚ) : ℚ := (4 * y ^ 5 + x) / (5 * y ^ 4)

/-- Eight Newton steps for the fifth root of `x`, starting from 1. -/
def rootFifth (x : ℚ) : ℚ := (List.range 8).foldl (fun y _ => rootFifthStep x y) 1

/-- Rational stand-in for Python's float exponentiation `x ** 2.4`
(`x ** 2.4 = x² · (x²)^(1/5)`, with the fifth root approximated by Newton
iteration). The audit properties verified in this file do not depend on the
value of this function, only on its determinism. -/
def ratPow24 (x : ℚ) : ℚ := x ^ 2 * rootFifth (x ^ 2)

/-- The inner `channel_luminance` of `calculate_relative_luminance` in
`audit_routes.py`: `c/255`, then the WCAG sRGB piecewise formula. -/
def channel_luminance (c : ℚ) : ℚ :=
  let cn := c / 255
  if cn ≤ 0.03928 then cn / 12.92 else ratPow24 ((cn + 0.055) / 1.055)

/-- `calculate_relative_luminance` of `audit_routes.py`. -/
def calculate_relative_luminance (rgb : Int × Int × Int) : ℚ :=
  0.2126 * channel_luminance rgb.1 + 0.7152 * channel_luminance rgb.2.1 +
    0.0722 * channel_luminance rgb.2.2

/-- `calculate_contrast_ratio` of `audit_routes.py`:
`(lighter + 0.05) / (darker + 0.05)`, or `none` when either color fails to
parse. -/
def calculate_contrast_ratio (color1 color2 : String) : Option ℚ :=
  match parse_color color1, parse_color color2 with
  | some rgb1, some rgb2 =>
    let l1 := calculate_relative_luminance rgb1
    let l2 := calculate_relative_luminance rgb2
    let lighter := max l1 l2
    let darker := min l1 l2
    some ((lighter + 0.05) / (darker + 0.05))
  | _, _ => none

/-- Two-digit zero padding of a natural number below 100. -/
def pad2 (n : Nat) : String := if n < 10 then "0" ++ toString n else toString n

/-- Model of Python's `f"{ratio:.2f}"` for the nonnegative ratios that occur:
round to two decimal places. (The direction of half-way ties is a float
formatting detail no verified claim depends on.) -/
def formatRat2 (q : ℚ) : String :=
  let np := (round (q * 100) : Int).toNat
  toString (np / 100) ++ "." ++ pad2 (np % 100)

/-- `parse_size` of `audit_routes.py`: strip whitespace, then match the regex
`(\d+(?:\.\d+)?)` at the start of the string and read it as a number (units
such as `px` are simply trailing characters the regex ignores). -/
def parse_size (size_str : String) : Option ℚ :=
  if size_str = "" then none
  else
    let cleaned := (pyStrip size_str).data
    let (intPart, rest) := digitsSpan cleaned
    if intPart.isEmpty then none
    else
      match rest with
      | '.' :: rest2 =>
        let (fracPart, _) := digitsSpan rest2
        if fracPart.isEmpty then some (digitsToNat intPart : ℚ)
        else some ((digitsToNat intPart : ℚ) +
          (digitsToNat fracPart : ℚ) / (10 : ℚ) ^ fracPart.length)
      | _ => some (digitsToNat intPart : ℚ)

/-- `check_rule` of `audit_routes.py`. A property whose name contains `color`
is checked with `colors_match` whatever the operator (the source has the same
call in both the `=` branch and the fallthrough). Otherwise, when both sides
parse as sizes the operators `>=`, `<=`, `>`, `<`, `=` compare numerically
(`=` as absolute difference `< 1`) — any other operator falls through to the
string comparisons: `=` case-insensitive equality, `contains` case-insensitive
substring, `one_of` case-insensitive membership in the comma-split expected
value, and everything else passes by default. -/
def check_rule (rule_operator expected found property_name : String) : Bool :=
  if strContains (pyLower property_name) "color" then
    colors_match expected found 20
  else
    let numericResult : Option Bool :=
      match parse_size expected, parse_size found with
      | some expected_num, some found_num =>
        if rule_operator = ">=" then some (decide (expected_num ≤ found_num))
        else if rule_operator = "<=" then some (decide (found_num ≤ expected_num))
        else if rule_operator = ">" then some (decide (expected_num < found_num))
        else if rule_operator = "<" then some (decide (found_num < expected_num))
        else if rule_operator = "=" then some (decide (|found_num - expected_num| < 1))
        else none
      | _, _ => none
    match numericResult with
    | some b => b
    | none =>
      if rule_operator = "=" then pyLower expected == pyLower found
      else if rule_operator = "contains" then strContains (pyLower found) (pyLower expected)
      else if rule_operator = "one_of" then
        let options := (splitOnChar ',' expected).map (fun o => pyLower (pyStrip o))
        options.contains (pyLower found)
      else true

/-- The measurement-key normalization inlined in
`apply_rules_to_extracted_values`: lowercase, then hyphens and spaces to
underscores (`.lower().replace('-', '_').replace(' ', '_')`). -/
def normalize_prop (s : String) : String :=
  String.mk ((pyLower s).data.map (fun ch => if ch = '-' ∨ ch = ' ' then '_' else ch))

/-- The rule-to-measurement matching test inlined in
`apply_rules_to_extracted_values`: the rule's normalized property must be a
substring of the normalized measurement key (`prop_normalized in
key_normalized`) — asymmetric containment. -/
def rule_matches_key (prop key : String) : Bool :=
  strContains (normalize_prop key) (normalize_prop prop)

/-- The `Violation` record of `audit_routes.py`. -/
structure Violation where
  rule_id : String
  severity : String
  property : String
  expected : String
  found : String
  message : String
  suggestion : String
deriving DecidableEq

/-- The chosen palette read from the session (`chosen_colors`); a field is
`none` when the role is absent from the dict or `null`. -/
structure ChosenColors where
  primary : Option String
  secondary : Option String
  accent : Option String
  accentSoft : Option String
  background : Option String

/-- The chosen typography read from the session (`chosen_typography`). -/
structure ChosenTypography where
  heading : Option String
  body : Option String

/-- One entry of the extracted `colors` list; `none` models an absent dict key
(the code reads both fields with `.get` defaults). -/
structure ColorInfo where
  element : Option String
  color : Option String

/-- One entry of the extracted `fonts` list. -/
structure FontInfo where
  element : Option String
  font : Option String

/-- One entry of the extracted `contrast_pairs` list. -/
structure ContrastPair where
  element : Option String
  foreground : Option String
  background : Option String
  is_large_text : Option Bool

/-- The extracted-observation structure handed to the audit. A `none` section
models the key being absent from the JSON object; measurement values are taken
in their `str()` form, which is the only form the code uses. -/
structure ExtractedValues where
  colors : Option (List ColorInfo)
  fonts : Option (List FontInfo)
  measurements : Option (List (String × String))
  contrast_pairs : Option (List ContrastPair)

/-- A style-rule record, with the fields shared by the dicts produced by
`synthesize_rules_from_patterns` and the `StyleRuleModel` rows that
`apply_rules_to_extracted_values` consumes. -/
structure SynthRule where
  session_id : Int
  rule_id : String
  component_type : Option String
  property : String
  operator : String
  value : String
  severity : String
  confidence : ℚ
  source : String
  message : String
deriving DecidableEq

/-- The body of the explicit-rule loop of `apply_rules_to_extracted_values`
for one rule: an absent `severity` defaults to `warning`; every measurement
whose normalized key contains the rule's normalized property is checked with
`check_rule`, and each failed check produces one violation. -/
def ruleViolationsFor (extracted_values : ExtractedValues) (rule : SynthRule) :
    List Violation :=
  (extracted_values.measurements.getD []).filterMap (fun kv =>
    if rule_matches_key rule.property kv.1 = true then
      if check_rule rule.operator rule.value kv.2 rule.property = false then
        some { rule_id := rule.rule_id,
               severity := if rule.severity = "" then "warning" else rule.severity,
               property := rule.property,
               expected := rule.operator ++ " " ++ rule.value,
               found := kv.2,
               message := if rule.message = "" then rule.property ++ " violates rule"
                 else rule.message,
               suggestion := "Adjust " ++ rule.property ++ " to be " ++ rule.operator ++
                 " " ++ rule.value }
      else none
    else none)

/-- `apply_rules_to_extracted_values` of `audit_routes.py`: the deterministic
audit core. Violations are produced in source order: palette check, typography
check, WCAG contrast check, then the explicit rule loop over measurements. -/
def apply_rules_to_extracted_values (extracted_values : ExtractedValues)
    (rules : List SynthRule) (chosen_colors : Option ChosenColors)
    (chosen_typography : Option ChosenTypography) : List Violation :=
  let colorViolations :=
    match chosen_colors, extracted_values.colors with
    | some cc, some found_colors =>
      let expected_palette :=
        ([cc.primary, cc.secondary, cc.accent, cc.accentSoft, cc.background].filterMap id).filter
          (fun c => decide (c ≠ ""))
      found_colors.filterMap (fun color_info =>
        let found_color := color_info.color.getD ""
        let element := color_info.element.getD "unknown"
        let in_palette := expected_palette.any (fun exp => colors_match exp found_color 20)
        if in_palette = false ∧ found_color ≠ "" then
          some { rule_id := "color-palette", severity := "warning",
                 property := element ++ " color",
                 expected := "One of: " ++ String.intercalate ", " expected_palette,
                 found := found_color,
                 message := "Color not in defined palette",
                 suggestion := "Use one of your defined palette colors instead of " ++ found_color }
        else none)
    | _, _ => []
  let fontViolations :=
    match chosen_typography, extracted_values.fonts with
    | some ct, some found_fonts =>
      let expected_heading := ct.heading.getD ""
      let expected_body := ct.body.getD ""
      found_fonts.filterMap (fun font_info =>
        let found_font := pyStrip ((splitOnChar ',' (font_info.font.getD "")).headD "")
        let element_type := font_info.element.getD ""
        let is_heading := strContains (pyLower element_type) "heading" = true ∨
          element_type = "h1" ∨ element_type = "h2" ∨ element_type = "h3" ∨ element_type = "h4"
        let expected := if is_heading then expected_heading else expected_body
        if expected ≠ "" ∧ strContains (pyLower found_font) (pyLower expected) = false then
          some { rule_id := "typography-font", severity := "warning",
                 property := element_type ++ " font",
                 expected := expected, found := found_font,
                 message := "Font doesn\x27t match typography profile",
                 suggestion := "Use \x27" ++ expected ++ "\x27 for " ++ element_type }
        else none)
    | _, _ => []
  let contrastViolations :=
    match extracted_values.contrast_pairs with
    | some pairs =>
      pairs.filterMap (fun pair =>
        let fg := pair.foreground.getD ""
        let bg := pair.background.getD ""
        let element := pair.element.getD "unknown"
        let is_large := pair.is_large_text.getD false
        match calculate_contrast_ratio fg bg with
        | some ratio =>
          if ratio ≠ 0 then
            let min_ratio : ℚ := if is_large then 3 else 9/2
            if ratio < min_ratio then
              some { rule_id := "wcag-contrast", severity := "error",
                     property := element ++ " contrast",
                     expected := ">= " ++ (if is_large then "3.0" else "4.5") ++ ":1 (WCAG AA)",
                     found := formatRat2 ratio ++ ":1",
                     message := "Contrast ratio too low for " ++
                       (if is_large then "large " else "") ++ "text",
                     suggestion := "Increase contrast between " ++ fg ++ " and " ++ bg ++
                       " to at least " ++ (if is_large then "3.0" else "4.5") ++ ":1" }
            else none
          else none
        | none => none)
    | none => []
  colorViolations ++ fontViolations ++ contrastViolations ++
    rules.flatMap (ruleViolationsFor extracted_values)

/-- The score computation of `audit_screenshot` in `audit_routes.py`:
`score = max(0, 100 - error_count * 15 - warning_count * 5)` over the
violation list returned by `apply_rules_to_extracted_values`. -/
def audit_score (violations : List Violation) : Int :=
  let error_count : Int := violations.countP (fun v => v.severity == "error")
  let warning_count : Int := violations.countP (fun v => v.severity == "warning")
  max 0 (100 - error_count * 15 - warning_count * 5)

/-- One sub-question answer of a comparison (multi-question mode). The
analyzer reads only `property` and `choice`; an absent `property` is modelled
by `""` (`None` and `""` behave identically in the source's `if not prop`
test). -/
structure QuestionResponse where
  category : String
  property : String
  choice : String
deriving DecidableEq

/-- One comparison record as consumed by the pattern analyzer: the two style
maps already JSON-decoded to ordered association lists (dict insertion order,
values in `str()` form), the legacy single `choice`, and the optional
multi-question `question_responses`. `some` models a stored JSON string —
which is nonempty, hence truthy, whenever present. -/
structure ComparisonResult where
  option_a_styles : List (String × String)
  option_b_styles : List (String × String)
  choice : String
  question_responses : Option (List QuestionResponse)

/-- The `f"{prop}={value}"` key under which votes are tallied. -/
def mkKey (prop value : String) : String := prop ++ "=" ++ value

/-- Legacy-mode vote events of one record, in the order the source increments
`property_votes`; `true` marks a `chosen` vote, `false` a `rejected` vote. A
record with `choice == "none"` is skipped; `choice == "a"` selects
`option_a_styles` as chosen (any other value selects `option_b_styles`); every
pair of the chosen map votes `chosen`, then every pair of the rejected map
votes `rejected`. The `chosen_styles` selection: `choice == "a"` selects
`option_a_styles` (any other value selects `option_b_styles`). -/
def chosenStyles (r : ComparisonResult) : List (String × String) :=
  if r.choice = "a" then r.option_a_styles else r.option_b_styles

/-- The `rejected_styles` selection of the legacy branch. -/
def rejectedStyles (r : ComparisonResult) : List (String × String) :=
  if r.choice = "a" then r.option_b_styles else r.option_a_styles

/-- Legacy-mode vote events continued: every pair of the chosen map votes
`chosen`, then every pair of the rejected map votes `rejected`. -/
def legacyVoteEvents (r : ComparisonResult) : List (String × Bool) :=
  if r.choice = "none" then []
  else
    (chosenStyles r).map (fun pv => (mkKey pv.1 pv.2, true)) ++
      (rejectedStyles r).map (fun pv => (mkKey pv.1 pv.2, false))

/-- Vote events of one record. Multi-question mode applies when
`question_responses` is present; each answered response votes the chosen
option's value for that property `chosen` and, when the other option also has
a value for it, the other value `rejected`; responses with an absent property,
a `none` choice, a choice other than `a`/`b`, or no value for the chosen side
contribute nothing. -/
def recordVoteEvents (r : ComparisonResult) : List (String × Bool) :=
  match r.question_responses with
  | some responses =>
    responses.flatMap (fun resp =>
      if resp.property = "" ∨ resp.choice = "none" then []
      else
        let value_a := r.option_a_styles.lookup resp.property
        let value_b := r.option_b_styles.lookup resp.property
        if resp.choice = "a" then
          match value_a with
          | some va =>
            (mkKey resp.property va, true) ::
              (match value_b with
               | some vb => [(mkKey resp.property vb, false)]
               | none => [])
          | none => []
        else if resp.choice = "b" then
          match value_b with
          | some vb =>
            (mkKey resp.property vb, true) ::
              (match value_a with
               | some va => [(mkKey resp.property va, false)]
               | none => [])
          | none => []
        else [])
  | none => legacyVoteEvents r

/-- All vote events of a comparison log, in source order. -/
def voteEvents (comparison_results : List ComparisonResult) : List (String × Bool) :=
  comparison_results.flatMap recordVoteEvents

/-- Final `chosen` tally of a key over a comparison log. -/
def chosenCount (comparison_results : List ComparisonResult) (key : String) : Nat :=
  (voteEvents comparison_results).countP (fun e => decide (e.1 = key) && e.2)

/-- Final `rejected` tally of a key over a comparison log. -/
def rejectedCount (comparison_results : List ComparisonResult) (key : String) : Nat :=
  (voteEvents comparison_results).countP (fun e => decide (e.1 = key) && !e.2)

/-- Fuel-bounded helper for `dedupKeepFirst` (the fuel makes the recursion
structural, so it evaluates inside the kernel). -/
def dedupKeepFirstAux : Nat → List String → List String
  | 0, _ => []
  | _, [] => []
  | fuel + 1, k :: rest => k :: dedupKeepFirstAux fuel (rest.filter (fun x => decide (¬ x = k)))

/-- First-occurrence deduplication: the keys of an insertion-ordered Python
dict whose entries were created in the order of the input list. -/
def dedupKeepFirst (l : List String) : List String := dedupKeepFirstAux l.length l

/-- The keys of `property_votes` in insertion order. -/
def voteKeys (comparison_results : List ComparisonResult) : List String :=
  dedupKeepFirst ((voteEvents comparison_results).map Prod.fst)

/-- `analyze_territory_mapping` of `pattern_analyzer.py`: the ordered
`property_votes` dict reduced to confidence scores
`((chosen - rejected) / (chosen + rejected) + 1) / 2` for every key with a
positive total. -/
def analyze_territory_mapping (comparison_results : List ComparisonResult) :
    List (String × ℚ) :=
  (voteKeys comparison_results).filterMap (fun key =>
    if 0 < chosenCount comparison_results key + rejectedCount comparison_results key then
      some (key,
        (((chosenCount comparison_results key : ℚ) - (rejectedCount comparison_results key : ℚ)) /
          ((chosenCount comparison_results key : ℚ) + (rejectedCount comparison_results key : ℚ)) +
          1) / 2)
    else none)

/-- Python's `key.split("=", 1)` guarded by `"=" in key`: the part before the
first `=` and everything after it, or `none` when the key has no `=`. -/
def splitKeyOnce (key : String) : Option (String × String) :=
  match key.data.dropWhile (fun c => decide (¬ c = '=')) with
  | [] => none
  | _ :: post => some (String.mk (key.data.takeWhile (fun c => decide (¬ c = '='))), String.mk post)

/-- `identify_high_signal_properties` of `pattern_analyzer.py`: keys whose
score is at or above `threshold` or at or below `1 - threshold`, split into
`(property, value, score)`, sorted stably by deviation from 0.5, strongest
first. -/
def identify_high_signal_properties (confidence_scores : List (String × ℚ))
    (threshold : ℚ) : List (String × String × ℚ) :=
  let high_signal := confidence_scores.filterMap (fun kc =>
    match splitKeyOnce kc.1 with
    | some pv =>
      if threshold ≤ kc.2 ∨ kc.2 ≤ 1 - threshold then some (pv.1, pv.2, kc.2) else none
    | none => none)
  high_signal.mergeSort (fun x y => decide (|y.2.2 - 1/2| ≤ |x.2.2 - 1/2|))

/-- `should_transition_to_dimension_isolation` of `pattern_analyzer.py`:
`False` below 10 comparisons, `True` from 15 on, and in between `True` exactly
when at least 5 distinct property names are high-signal at threshold 0.6. -/
def should_transition_to_dimension_isolation (comparison_count : Nat)
    (comparison_results : List ComparisonResult) : Bool :=
  if comparison_count < 10 then false
  else if 15 ≤ comparison_count then true
  else
    let confidence_scores := analyze_territory_mapping comparison_results
    let high_signal := identify_high_signal_properties confidence_scores (6/10)
    decide (5 ≤ (dedupKeepFirst (high_signal.map (fun t => t.1))).length)

/-- The Python literal values that flow through rule synthesis: strings and
integers. -/
inductive PyVal where
  | pstr (s : String)
  | pint (n : Int)
deriving DecidableEq

/-- Python's `str()` of a value, as interpolated by f-strings. -/
def pvStr : PyVal → String
  | .pstr s => s
  | .pint n => toString n

/-- JSON escaping of one character (quotes and backslashes; the control and
non-ASCII escapes of `json.dumps` are not exercised by the verified claims). -/
def jsonEscapeChar (c : Char) : List Char :=
  if c = '"' then ['\\', '"']
  else if c = '\\' then ['\\', '\\']
  else [c]

/-- Python's `json.dumps` for the string and integer values that rule
synthesis serializes into the `value` field: a string is wrapped in double
quotes (escaped), an integer prints bare. -/
def pyJsonDumps : PyVal → String
  | .pstr s => String.mk (('"' :: s.data.flatMap jsonEscapeChar) ++ ['"'])
  | .pint n => toString n

/-- The per-property aggregation record of `aggregate_property_preferences`. -/
structure PropPref where
  preferred_values : List String
  rejected_values : List String
  confidence : ℚ
deriving DecidableEq

/-- The `scores` sequence of one property inside
`aggregate_property_preferences`: for every confidence-score key of the form
`prop=value` (in dict order), the pair `(value, score)`. -/
def propScores (confidence_scores : List (String × ℚ)) (prop : String) :
    List (String × ℚ) :=
  confidence_scores.filterMap (fun kc =>
    match splitKeyOnce kc.1 with
    | some pv => if pv.1 = prop then some (pv.2, kc.2) else none
    | none => none)

/-- The property names of `property_data` in insertion order: first appearance
among the keys that contain `=`. -/
def aggKeys (confidence_scores : List (String × ℚ)) : List String :=
  dedupKeepFirst (confidence_scores.filterMap (fun kc => (splitKeyOnce kc.1).map Prod.fst))

/-- One property's aggregation: values with score `>= 0.65` are preferred,
`elif <= 0.35` rejected; property confidence is
`min(1, avg(|score - 0.5|) * 2)` over all of the property's scores (0 when
there are none). -/
def mkPropPref (scores : List (String × ℚ)) : PropPref :=
  let preferred := (scores.filter (fun vc => decide ((0.65 : ℚ) ≤ vc.2))).map Prod.fst
  let rejected := (scores.filter (fun vc =>
    decide (¬ (0.65 : ℚ) ≤ vc.2) && decide (vc.2 ≤ (0.35 : ℚ)))).map Prod.fst
  let avg_deviation : ℚ :=
    if scores.isEmpty then 0
    else (scores.map (fun vc => |vc.2 - 1/2|)).sum / (scores.length : ℚ)
  { preferred_values := preferred, rejected_values := rejected,
    confidence := min 1 (avg_deviation * 2) }

/-- `aggregate_property_preferences` of `pattern_analyzer.py`. -/
def aggregate_property_preferences (comparison_results : List ComparisonResult) :
    List (String × PropPref) :=
  let confidence_scores := analyze_territory_mapping comparison_results
  (aggKeys confidence_scores).map (fun prop =>
    (prop, mkPropPref (propScores confidence_scores prop)))

/-- The static `property_component_map` of `_infer_component_type` in
`rule_synthesizer.py`, in source order. -/
def property_component_map : List (String × Option String) :=
  [("border_radius", none), ("padding_x", none), ("padding_y", none),
   ("shadow", none), ("background", none),
   ("font_weight", some "typography"), ("font_size", some "typography"),
   ("text_transform", some "button"), ("background_style", some "button"),
   ("transition", some "button"),
   ("border_width", some "input"), ("border_color", some "input"),
   ("label_position", some "input"), ("focus_ring", some "input"),
   ("hover_effect", some "card"),
   ("heading_weight", some "typography"), ("heading_size_scale", some "typography"),
   ("body_line_height", some "typography"), ("letter_spacing", some "typography"),
   ("font_family", some "typography"), ("paragraph_spacing", some "typography"),
   ("style", some "navigation"), ("item_padding_x", some "navigation"),
   ("item_padding_y", some "navigation"), ("active_indicator", some "navigation"),
   ("separator", some "navigation"),
   ("layout", some "form"), ("label_style", some "form"), ("spacing", some "form"),
   ("error_style", some "form"), ("required_indicator", some "form"),
   ("help_text_position", some "form"),
   ("type", some "feedback"), ("position", some "feedback"), ("icon", some "feedback"),
   ("duration", some "feedback"), ("animation", none),
   ("size", some "modal"), ("overlay", some "modal"), ("close_button", some "modal"),
   ("header_style", some "modal")]

/-- `_infer_component_type` of `rule_synthesizer.py`: `.get(property_name)`,
`None` for an unknown property. -/
def infer_component_type (property_name : String) : Option String :=
  (property_component_map.lookup property_name).getD none

/-- Whitespace skipping inside the dict-literal parser. -/
def skipWs (cs : List Char) : List Char := cs.dropWhile Char.isWhitespace

/-- A quoted literal after its opening quote `q`: the content up to the next
`q` and the remainder after it. -/
def parseQuoted (q : Char) (cs : List Char) : Option (String × List Char) :=
  match cs.dropWhile (fun c => decide (¬ c = q)) with
  | _ :: rest => some (String.mk (cs.takeWhile (fun c => decide (¬ c = q))), rest)
  | [] => none

/-- One Python literal: a single- or double-quoted string, or an optionally
negated decimal integer. -/
def parsePyLit (cs : List Char) : Option (PyVal × List Char) :=
  match cs with
  | [] => none
  | c :: rest =>
    if c = Char.ofNat 39 ∨ c = '"' then
      (parseQuoted c rest).map (fun sr => (PyVal.pstr sr.1, sr.2))
    else if c = '-' then
      let (ds, rest2) := digitsSpan rest
      if ds.isEmpty then none else some (PyVal.pint (-(digitsToNat ds : Int)), rest2)
    else
      let (ds, rest2) := digitsSpan (c :: rest)
      if ds.isEmpty then none else some (PyVal.pint (digitsToNat ds : Int), rest2)

/-- The entry list of a Python dict literal, after its opening brace: `fuel`
bounds the recursion by the input length. -/
def parsePyDictEntries (fuel : Nat) (cs : List Char) (acc : List (String × PyVal)) :
    Option (List (String × PyVal)) :=
  match fuel with
  | 0 => none
  | fuel2 + 1 =>
    match parsePyLit (skipWs cs) with
    | some (PyVal.pstr k, rest) =>
      match skipWs rest with
      | ':' :: rest2 =>
        match parsePyLit (skipWs rest2) with
        | some (v, rest3) =>
          match skipWs rest3 with
          | ',' :: rest4 => parsePyDictEntries fuel2 rest4 (acc ++ [(k, v)])
          | c :: rest5 =>
            if c = Char.ofNat 125 ∧ (skipWs rest5).isEmpty then some (acc ++ [(k, v)])
            else none
          | [] => none
        | none => none
      | _ => none
    | _ => none

/-- `_decompose_complex_value` of `rule_synthesizer.py`: a string value that
starts with a brace and contains a colon is parsed as a Python dict literal
(`ast.literal_eval`, modelled here for the dict shapes that `str()` of a style
map produces: string keys, string or integer values); anything else is a
scalar and yields `none`. The `parent_prop` parameter is unused, as in the
source. -/
def decompose_complex_value (value : String) (parent_prop : String) :
    Option (List (String × PyVal)) :=
  if pyStartsWith value "\x7b" ∧ strContains value ":" then
    parsePyDictEntries value.data.length (value.data.drop 1) []
  else none

/-- Python's `f"{n:03d}"` for the nonnegative counter values used in rule
identifiers. -/
def pad3 (n : Nat) : String :=
  if n < 10 then "00" ++ toString n
  else if n < 100 then "0" ++ toString n
  else toString n

/-- `_generate_rule_message` of `rule_synthesizer.py`. -/
def generate_rule_message (property_name op : String) (value : PyVal)
    (component_type : Option String) : String :=
  let component_str := match component_type with
    | some c => if c = "" then "" else c ++ " "
    | none => ""
  if op = "=" then "Prefer " ++ component_str ++ property_name ++ " of " ++ pvStr value
  else if op = "!=" then "Avoid " ++ component_str ++ property_name ++ " of " ++ pvStr value
  else if op = ">=" then component_str ++ property_name ++ " should be at least " ++ pvStr value
  else if op = "<=" then component_str ++ property_name ++ " should not exceed " ++ pvStr value
  else component_str ++ property_name ++ " " ++ op ++ " " ++ pvStr value

/-- Emission of one rule per `(property, value)` pair with a fixed operator,
threading the global `rule_counter` (incremented before each rule; the rule id
is `f"{prefix}-{rule_counter:03d}"`). -/
def emitRules (session_id : Int) (pfx : String) (component_type : Option String)
    (confidence : ℚ) (op : String) (counter : Nat) :
    List (String × PyVal) → List SynthRule × Nat
  | [] => ([], counter)
  | (p, v) :: rest =>
    ({ session_id := session_id,
       rule_id := pfx ++ "-" ++ pad3 (counter + 1),
       component_type := component_type,
       property := p, operator := op, value := pyJsonDumps v,
       severity := "warning", confidence := confidence, source := "extracted",
       message := generate_rule_message p op v component_type } ::
        (emitRules session_id pfx component_type confidence op (counter + 1) rest).1,
     (emitRules session_id pfx component_type confidence op (counter + 1) rest).2)

/-- The rule-id prefix of a property: the first three characters of its
inferred component type, or `"gen"` when there is none. -/
def rulePrefix (component_type : Option String) : String :=
  match component_type with
  | some c => if c = "" then "gen" else String.mk (c.data.take 3)
  | none => "gen"

/-- The `(property, value)` pairs emitted for one surviving property: the
first preferred value (decomposed when it is a serialized mapping, one pair
otherwise) for the `=` rules. -/
def prefPairsOf (prop : String) (data : PropPref) : List (String × PyVal) :=
  match data.preferred_values with
  | [] => []
  | best :: _ =>
    match decompose_complex_value best prop with
    | some kvs => kvs
    | none => [(prop, PyVal.pstr best)]

/-- The `(property, value)` pairs for the `!=` rules: the first two rejected
values, each decomposed when it is a serialized mapping. -/
def rejPairsOf (prop : String) (data : PropPref) : List (String × PyVal) :=
  (data.rejected_values.take 2).flatMap (fun v =>
    match decompose_complex_value v prop with
    | some kvs => kvs
    | none => [(prop, PyVal.pstr v)])

/-- The rules of one surviving property (first component) and the global
counter after them (second component): `=` rules for the first preferred
value, then `!=` rules for the first two rejected values. -/
def synthProp (session_id : Int) (counter : Nat) (prop : String) (data : PropPref) :
    List SynthRule × Nat :=
  ((emitRules session_id (rulePrefix (infer_component_type prop))
      (infer_component_type prop) data.confidence "=" counter (prefPairsOf prop data)).1 ++
     (emitRules session_id (rulePrefix (infer_component_type prop))
        (infer_component_type prop) data.confidence "!="
        (emitRules session_id (rulePrefix (infer_component_type prop))
          (infer_component_type prop) data.confidence "=" counter
          (prefPairsOf prop data)).2 (rejPairsOf prop data)).1,
   (emitRules session_id (rulePrefix (infer_component_type prop))
      (infer_component_type prop) data.confidence "!="
      (emitRules session_id (rulePrefix (infer_component_type prop))
        (infer_component_type prop) data.confidence "=" counter
        (prefPairsOf prop data)).2 (rejPairsOf prop data)).2)

/-- The per-property loop of `synthesize_rules_from_patterns`: properties
below `min_confidence` are dropped; otherwise the first preferred value (after
optional decomposition) yields `=` rules and the first two rejected values
yield `!=` rules, all sharing one global counter. -/
def synthGo (session_id : Int) (min_confidence : ℚ) (counter : Nat) :
    List (String × PropPref) → List SynthRule
  | [] => []
  | (prop, data) :: rest =>
    if data.confidence < min_confidence then synthGo session_id min_confidence counter rest
    else
      (synthProp session_id counter prop data).1 ++
        synthGo session_id min_confidence (synthProp session_id counter prop data).2 rest

/-- `synthesize_rules_from_patterns` of `rule_synthesizer.py`. The Python
default `min_confidence=0.6` is passed explicitly by the callers in this
file. -/
def synthesize_rules_from_patterns (comparison_results : List ComparisonResult)
    (session_id : Int) (min_confidence : ℚ) : List SynthRule :=
  synthGo session_id min_confidence 0 (aggregate_property_preferences comparison_results)

/-- The rule dict returned by `parse_stated_preference` (no `session_id` or
`rule_id` — those are added by the route layer). -/
structure StatedRule where
  property : String
  operator : String
  value : String
  component_type : Option String
  confidence : ℚ
  source : String
  severity : String
  message : String
deriving DecidableEq

/-- The `keyword_rules` table of `parse_stated_preference`, in source (dict
insertion) order. -/
def keyword_rules : List (String × String × PyVal) :=
  [("gradients", "background_style", PyVal.pstr "gradient"),
   ("gradient", "background_style", PyVal.pstr "gradient"),
   ("shadows", "shadow", PyVal.pstr "none"),
   ("shadow", "shadow", PyVal.pstr "md"),
   ("drop shadows", "shadow", PyVal.pstr "lg"),
   ("rounded", "border_radius", PyVal.pint 8),
   ("rounded corners", "border_radius", PyVal.pint 8),
   ("square", "border_radius", PyVal.pint 0),
   ("square corners", "border_radius", PyVal.pint 0),
   ("pill", "border_radius", PyVal.pint 9999),
   ("uppercase", "text_transform", PyVal.pstr "uppercase"),
   ("lowercase", "text_transform", PyVal.pstr "none"),
   ("bold", "font_weight", PyVal.pint 700),
   ("thin", "font_weight", PyVal.pint 400),
   ("large", "font_size", PyVal.pint 18),
   ("small", "font_size", PyVal.pint 12),
   ("outline", "background_style", PyVal.pstr "outline"),
   ("solid", "background_style", PyVal.pstr "solid"),
   ("minimal", "style", PyVal.pstr "minimal"),
   ("floating labels", "label_position", PyVal.pstr "floating"),
   ("inline labels", "label_position", PyVal.pstr "inline")]

/-- The negation cue substrings of `parse_stated_preference` — note that the
third cue is `"no "` with a trailing space in the source. -/
def negation_cues : List String := ["never", "avoid", "no ", "don\x27t", "without"]

/-- `parse_stated_preference` of `rule_synthesizer.py`: lowercase and strip
the statement, choose `!=` when any negation cue occurs as a substring,
otherwise `=`; the first matching keyword supplies property and value, and an
unmatched statement falls back to a `custom` rule carrying the raw statement
as its JSON value. -/
def parse_stated_preference (statement : String) (component : Option String) :
    StatedRule :=
  let statement_lower := pyStrip (pyLower statement)
  let op := if negation_cues.any (fun w => strContains statement_lower w) then "!=" else "="
  match keyword_rules.find? (fun kr => strContains statement_lower kr.1) with
  | some kr =>
    { property := kr.2.1, operator := op, value := pyJsonDumps kr.2.2,
      component_type := component, confidence := 1, source := "stated",
      severity := if op = "!=" then "warning" else "info",
      message := pyStrip statement }
  | none =>
    { property := "custom", operator := op, value := pyJsonDumps (PyVal.pstr statement),
      component_type := component, confidence := 1, source := "stated",
      severity := "info", message := pyStrip statement }

/-- Demonstration log for the rejected-value rule interaction (one comparison
whose winner has `border_color = "#ff0000"` and whose loser has
`border_color = "#000000"`). -/
def c10Log : List ComparisonResult :=
  [ComparisonResult.mk [("border_color", "#ff0000")] [("border_color", "#000000")] "a" none]

/-- Demonstration observation for the rejected-value rule interaction: one
`border_color` measurement matching neither synthesized value. -/
def c10Obs : ExtractedValues :=
  ExtractedValues.mk none none (some [("border_color", "#ffffff")]) none

/-- Demonstration log with two properties of different inferred components
(`border_radius` is generic, `font_weight` belongs to typography). -/
def c9Log : List ComparisonResult :=
  [ComparisonResult.mk [("border_radius", "8px"), ("font_weight", "700")]
    [("border_radius", "0px"), ("font_weight", "400")] "a" none]

/-- The identifiers of a rule list continue the global counter from `counter`:
the i-th rule's identifier is some prefix, a hyphen, then the zero-padded
value `counter + i + 1`. -/
def idsSequentialFrom (l : List SynthRule) (counter : Nat) : Prop :=
  ∀ i (h : i < l.length), ∃ p, (l.get ⟨i, h⟩).rule_id = p ++ "-" ++ pad3 (counter + i + 1)

/-- Demonstration Scenario-A log: six identical comparisons whose winner has
`border_radius = "8px"` and whose loser has `border_radius = "0px"`. -/
def c6Log : List ComparisonResult :=
  List.replicate 6
    (ComparisonResult.mk [("border_radius", "8px")] [("border_radius", "0px")] "a" none)

/-- Boolean equality on strings is symmetric. -/
theorem strBeq_comm (x y : String) : (x == y) = (y == x) := by
  by_cases h : x = y
  · subst h; rfl
  · rw [beq_eq_false_iff_ne.mpr h, beq_eq_false_iff_ne.mpr (Ne.symm h)]

/-- C7: `colors_match` is symmetric in its two color arguments for every
tolerance, and reflexive (`colors_match c c t = true`) for every color string
`c` (valid or not) and every tolerance `t ≥ 0`. -/
theorem colors_match_symm_and_refl :
    (∀ a b t, colors_match a b t = colors_match b a t) ∧
    (∀ c t, 0 ≤ t → colors_match c c t = true) := by
  constructor
  · intro a b t
    unfold colors_match
    cases parse_color a <;> cases parse_color b <;> simp only []
    · exact strBeq_comm _ _
    · exact strBeq_comm _ _
    · exact strBeq_comm _ _
    · rw [decide_eq_decide]
      constructor
      · rintro ⟨h1, h2, h3⟩
        rw [abs_sub_comm] at h1 h2 h3
        exact ⟨h1, h2, h3⟩
      · rintro ⟨h1, h2, h3⟩
        rw [abs_sub_comm] at h1 h2 h3
        exact ⟨h1, h2, h3⟩
  · intro c t ht
    unfold colors_match
    cases parse_color c
    · simp
    · simp only [sub_self, abs_zero]
      exact decide_eq_true ⟨ht, ht, ht⟩

/-- Witness for C7 at concrete colors: symmetry at a hex/rgb pair and
reflexivity at the palette color `#1a365d` with the default tolerance. -/
theorem colors_match_symm_and_refl_witness :
    colors_match "#ff0000" "rgb(250, 0, 0)" 20 = colors_match "rgb(250, 0, 0)" "#ff0000" 20 ∧
    colors_match "#1a365d" "#1a365d" 20 = true :=
  ⟨colors_match_symm_and_refl.1 "#ff0000" "rgb(250, 0, 0)" 20,
   colors_match_symm_and_refl.2 "#1a365d" 20 (by decide)⟩

unseal Rat.mul Rat.add Rat.inv Rat.sub Rat.ofScientific

/-- C1: the audit core is deterministic — `apply_rules_to_extracted_values`
is a pure function of its arguments, so two calls with identical extracted
observation, rule list, chosen palette and chosen typography return identical
violation lists, and the score derived from them is identical (no randomness,
no external calls, no time-dependence). -/
theorem audit_is_deterministic (ev : ExtractedValues) (rules : List SynthRule)
    (cc : Option ChosenColors) (ct : Option ChosenTypography) :
    apply_rules_to_extracted_values ev rules cc ct =
      apply_rules_to_extracted_values ev rules cc ct ∧
    audit_score (apply_rules_to_extracted_values ev rules cc ct) =
      audit_score (apply_rules_to_extracted_values ev rules cc ct) :=
  ⟨rfl, rfl⟩

/-- Appending an info-severity violation never changes the audit score. -/
theorem audit_score_append_info (vs : List Violation) (v : Violation)
    (hv : v.severity = "info") : audit_score (vs ++ [v]) = audit_score vs := by
  unfold audit_score
  rw [List.countP_append, List.countP_append]
  simp [List.countP_cons, hv]

/-- C2: the score over any violation list produced by the audit equals
`max(0, 100 − 15·errors − 5·warnings)`, and info-severity violations never
change the score. -/
theorem audit_score_formula_and_info_invariance (ev : ExtractedValues)
    (rules : List SynthRule) (cc : Option ChosenColors)
    (ct : Option ChosenTypography) (v : Violation) :
    audit_score (apply_rules_to_extracted_values ev rules cc ct) =
      max 0 (100 -
        ((apply_rules_to_extracted_values ev rules cc ct).countP
          (fun x => x.severity == "error") : Int) * 15 -
        ((apply_rules_to_extracted_values ev rules cc ct).countP
          (fun x => x.severity == "warning") : Int) * 5) ∧
    (v.severity = "info" →
      audit_score (apply_rules_to_extracted_values ev rules cc ct ++ [v]) =
        audit_score (apply_rules_to_extracted_values ev rules cc ct)) :=
  ⟨rfl, fun hv => audit_score_append_info _ v hv⟩

/-- Witness for C2 at a concrete (empty) observation and a concrete
info-severity violation. -/
theorem audit_score_formula_and_info_invariance_witness :
    audit_score (apply_rules_to_extracted_values
        (ExtractedValues.mk none none none none) [] none none) =
      max 0 (100 -
        ((apply_rules_to_extracted_values (ExtractedValues.mk none none none none)
          [] none none).countP (fun x => x.severity == "error") : Int) * 15 -
        ((apply_rules_to_extracted_values (ExtractedValues.mk none none none none)
          [] none none).countP (fun x => x.severity == "warning") : Int) * 5) ∧
    audit_score (apply_rules_to_extracted_values
        (ExtractedValues.mk none none none none) [] none none ++
        [Violation.mk "note-1" "info" "p" "e" "f" "m" "s"]) =
      audit_score (apply_rules_to_extracted_values
        (ExtractedValues.mk none none none none) [] none none) :=
  ⟨(audit_score_formula_and_info_invariance (ExtractedValues.mk none none none none)
      [] none none (Violation.mk "note-1" "info" "p" "e" "f" "m" "s")).1,
   (audit_score_formula_and_info_invariance (ExtractedValues.mk none none none none)
      [] none none (Violation.mk "note-1" "info" "p" "e" "f" "m" "s")).2 rfl⟩

/-- C3: rule-to-measurement matching is asymmetric substring containment after
normalizing both sides — the rule's normalized property must occur inside the
normalized measurement key; in particular a rule `"radius"` matches the key
`"button_border_radius"`, while a rule `"border_radius"` does not match a key
named plain `"radius"`. -/
theorem rule_matching_containment_and_examples :
    (∀ p k, rule_matches_key p k = true ↔
      (normalize_prop p).data <:+: (normalize_prop k).data) ∧
    rule_matches_key "radius" "button_border_radius" = true ∧
    rule_matches_key "border_radius" "radius" = false := by
  refine ⟨fun p k => ?_, by decide, by decide⟩
  simp [rule_matches_key, strContains]

/-- C4: `should_transition_to_dimension_isolation` returns `false` below 10
comparisons, `true` from 15 on, and for counts in between returns `true`
exactly when at least 5 distinct property names are high-signal at threshold
0.6 in the history's confidence scores. -/
theorem should_transition_thresholds (comparison_count : Nat)
    (comparison_results : List ComparisonResult) :
    (comparison_count < 10 →
      should_transition_to_dimension_isolation comparison_count comparison_results = false) ∧
    (15 ≤ comparison_count →
      should_transition_to_dimension_isolation comparison_count comparison_results = true) ∧
    (10 ≤ comparison_count → comparison_count < 15 →
      (should_transition_to_dimension_isolation comparison_count comparison_results = true ↔
        5 ≤ (dedupKeepFirst ((identify_high_signal_properties
          (analyze_territory_mapping comparison_results) (6/10)).map
            (fun t => t.1))).length)) := by
  unfold should_transition_to_dimension_isolation
  refine ⟨fun h => ?_, fun h => ?_, fun h1 h2 => ?_⟩
  · simp [h]
  · have hn : ¬ comparison_count < 10 := by omega
    simp [hn, h]
  · have hn : ¬ comparison_count < 10 := by omega
    have hn2 : ¬ 15 ≤ comparison_count := by omega
    simp [hn, hn2]

/-- Witness for C4 at concrete comparison counts 5, 20 and 12 over the empty
history. -/
theorem should_transition_thresholds_witness :
    should_transition_to_dimension_isolation 5 [] = false ∧
    should_transition_to_dimension_isolation 20 [] = true ∧
    (should_transition_to_dimension_isolation 12 [] = true ↔
      5 ≤ (dedupKeepFirst ((identify_high_signal_properties
        (analyze_territory_mapping []) (6/10)).map (fun t => t.1))).length) :=
  ⟨(should_transition_thresholds 5 []).1 (by decide),
   (should_transition_thresholds 20 []).2.1 (by decide),
   (should_transition_thresholds 12 []).2.2 (by decide) (by decide)⟩

/-- C8 counterexample: the statement `"normal"` contains the claimed cue word
`"no"` as a substring, yet `parse_stated_preference` returns operator `"="` —
the source's actual cue is `"no "` with a trailing space. -/
theorem parse_stated_no_cue_counterexample :
    (parse_stated_preference "normal" none).operator = "=" ∧
    strContains "normal" "no" = true := by
  exact ⟨by decide, by decide⟩

/-- C8 (amended): the operator returned by `parse_stated_preference` is `"!="`
exactly when the lowercased, stripped statement contains one of the substrings
`"never"`, `"avoid"`, `"no "` (with a trailing space), `"don't"`, `"without"`
(and `"="` otherwise), and the returned rule always carries confidence 1.0 and
source `"stated"`. -/
theorem parse_stated_operator_confidence_source (statement : String)
    (component : Option String) :
    ((parse_stated_preference statement component).operator = "!=" ↔
      negation_cues.any (fun w => strContains (pyStrip (pyLower statement)) w) = true) ∧
    (parse_stated_preference statement component).confidence = 1 ∧
    (parse_stated_preference statement component).source = "stated" := by
  unfold parse_stated_preference
  cases h : keyword_rules.find? (fun kr => strContains (pyStrip (pyLower statement)) kr.1)
  · simp only [h]
    refine ⟨?_, trivial, trivial⟩
    cases hb : negation_cues.any (fun w => strContains (pyStrip (pyLower statement)) w) <;>
      simp [hb]
  · simp only [h]
    refine ⟨?_, trivial, trivial⟩
    cases hb : negation_cues.any (fun w => strContains (pyStrip (pyLower statement)) w) <;>
      simp [hb]

/-- C5: every confidence score produced by `analyze_territory_mapping` lies in
`[0,1]` and equals `((chosen − rejected)/(chosen + rejected) + 1)/2` for that
key's tallied votes; a key with zero total votes is absent from the result
(no score, not a score of zero). -/
theorem confidence_score_bounds_formula_and_absence
    (comparison_results : List ComparisonResult) (key : String) (score : ℚ) :
    ((key, score) ∈ analyze_territory_mapping comparison_results →
      0 ≤ score ∧ score ≤ 1 ∧
      score = (((chosenCount comparison_results key : ℚ) -
          (rejectedCount comparison_results key : ℚ)) /
        ((chosenCount comparison_results key : ℚ) +
          (rejectedCount comparison_results key : ℚ)) + 1) / 2) ∧
    (chosenCount comparison_results key + rejectedCount comparison_results key = 0 →
      (key, score) ∉ analyze_territory_mapping comparison_results) := by
  have main : (key, score) ∈ analyze_territory_mapping comparison_results →
      0 < chosenCount comparison_results key + rejectedCount comparison_results key ∧
      score = (((chosenCount comparison_results key : ℚ) -
          (rejectedCount comparison_results key : ℚ)) /
        ((chosenCount comparison_results key : ℚ) +
          (rejectedCount comparison_results key : ℚ)) + 1) / 2 := by
    intro hmem
    obtain ⟨k', _, hf⟩ := List.mem_filterMap.mp hmem
    by_cases hguard : 0 < chosenCount comparison_results k' + rejectedCount comparison_results k'
    · rw [if_pos hguard] at hf
      have h1 := Option.some.inj hf
      have hkey : k' = key := congrArg Prod.fst h1
      subst hkey
      exact ⟨hguard, (congrArg Prod.snd h1).symm⟩
    · rw [if_neg hguard] at hf
      exact absurd hf (by simp)
  constructor
  · intro hmem
    obtain ⟨hpos, hscore⟩ := main hmem
    have hpos' : (0 : ℚ) < (chosenCount comparison_results key : ℚ) +
        (rejectedCount comparison_results key : ℚ) := by exact_mod_cast hpos
    have hc : (0 : ℚ) ≤ (chosenCount comparison_results key : ℚ) := Nat.cast_nonneg _
    have hr : (0 : ℚ) ≤ (rejectedCount comparison_results key : ℚ) := Nat.cast_nonneg _
    have hraw1 : (-1 : ℚ) ≤ ((chosenCount comparison_results key : ℚ) -
        (rejectedCount comparison_results key : ℚ)) /
        ((chosenCount comparison_results key : ℚ) +
          (rejectedCount comparison_results key : ℚ)) := by
      rw [le_div_iff hpos']
      linarith
    have hraw2 : ((chosenCount comparison_results key : ℚ) -
        (rejectedCount comparison_results key : ℚ)) /
        ((chosenCount comparison_results key : ℚ) +
          (rejectedCount comparison_results key : ℚ)) ≤ 1 := by
      rw [div_le_one hpos']
      linarith
    refine ⟨?_, ?_, hscore⟩
    · rw [hscore]; linarith
    · rw [hscore]; linarith
  · intro h0 hmem
    obtain ⟨hpos, _⟩ := main hmem
    omega

/-- Witness for C5 at a concrete one-record history: the score of the chosen
value is 1 and satisfies the vote formula, and an unvoted key is absent. -/
theorem confidence_score_bounds_formula_and_absence_witness :
    (0 ≤ (1 : ℚ) ∧ (1 : ℚ) ≤ 1 ∧
      (1 : ℚ) = (((chosenCount [ComparisonResult.mk [("a", "x")] [("a", "y")] "a" none]
          "a=x" : ℚ) -
        (rejectedCount [ComparisonResult.mk [("a", "x")] [("a", "y")] "a" none] "a=x" : ℚ)) /
        ((chosenCount [ComparisonResult.mk [("a", "x")] [("a", "y")] "a" none] "a=x" : ℚ) +
          (rejectedCount [ComparisonResult.mk [("a", "x")] [("a", "y")] "a" none]
            "a=x" : ℚ)) + 1) / 2) ∧
    ("zz", (1 : ℚ)) ∉ analyze_territory_mapping
      [ComparisonResult.mk [("a", "x")] [("a", "y")] "a" none] :=
  ⟨(confidence_score_bounds_formula_and_absence
      [ComparisonResult.mk [("a", "x")] [("a", "y")] "a" none] "a=x" 1).1 (by decide),
   (confidence_score_bounds_formula_and_absence
      [ComparisonResult.mk [("a", "x")] [("a", "y")] "a" none] "zz" 1).2 (by decide)⟩

/-- C10 counterexample: from a log whose loser styles carry
`border_color = "#000000"`, synthesis emits the rejected-value rule `inp-002`
with operator `"!="` on the color-named property `border_color` — and that
rule does produce a violation in `apply_rules_to_extracted_values` (the
color-comparison path applies `colors_match` whatever the operator), refuting
the claim that synthesized `"!="` rules can never produce a violation. -/
theorem neq_rule_violation_counterexample :
    ((synthesize_rules_from_patterns c10Log 1 (6/10)).map
      (fun r => (r.rule_id, r.property, r.operator))) =
      [("inp-001", "border_color", "="), ("inp-002", "border_color", "!=")] ∧
    ((apply_rules_to_extracted_values c10Obs
        (synthesize_rules_from_patterns c10Log 1 (6/10)) none none).filter
      (fun v => v.rule_id == "inp-002")).length = 1 :=
  ⟨by decide, by decide⟩

/-- C10 (amended): `check_rule` with operator `"!="` returns `True` for all
expected and found values whenever the rule's property name does not contain
`"color"` (there is no `"!="` branch, so the unsupported-operator default pass
applies), and consequently such a rejected-value rule contributes no violation
to `apply_rules_to_extracted_values`; when the property name does contain
`"color"`, the color-match path ignores the operator and violations remain
possible. -/
theorem neq_rule_passes_and_adds_no_violation (ev : ExtractedValues)
    (cc : Option ChosenColors) (ct : Option ChosenTypography) (rule : SynthRule)
    (expected found : String) (hop : rule.operator = "!=")
    (hcolor : strContains (pyLower rule.property) "color" = false) :
    check_rule "!=" expected found rule.property = true ∧
    apply_rules_to_extracted_values ev [rule] cc ct =
      apply_rules_to_extracted_values ev [] cc ct := by
  have hcheck : ∀ e f, check_rule "!=" e f rule.property = true := by
    intro e f
    unfold check_rule
    rw [hcolor]
    simp only [Bool.false_eq_true, if_false]
    cases parse_size e <;> cases parse_size f <;> simp
  have hnil : ruleViolationsFor ev rule = [] := by
    unfold ruleViolationsFor
    rw [List.filterMap_eq_nil_iff]
    intro kv _
    by_cases hm : rule_matches_key rule.property kv.1 = true
    · rw [if_pos hm, hop, hcheck rule.value kv.2]
      simp
    · rw [if_neg hm]
  refine ⟨hcheck expected found, ?_⟩
  unfold apply_rules_to_extracted_values
  simp [hnil]

/-- Witness for C10 (amended) at the concrete synthesized-style rule
`border_radius != "0px"` and the concrete observation `c10Obs`. -/
theorem neq_rule_passes_and_adds_no_violation_witness :
    check_rule "!=" "\"0px\"" "8px"
      (SynthRule.mk 1 "gen-002" none "border_radius" "!=" "\"0px\"" "warning" 1
        "extracted" "msg").property = true ∧
    apply_rules_to_extracted_values c10Obs
      [SynthRule.mk 1 "gen-002" none "border_radius" "!=" "\"0px\"" "warning" 1
        "extracted" "msg"] none none =
      apply_rules_to_extracted_values c10Obs [] none none :=
  neq_rule_passes_and_adds_no_violation c10Obs none none
    (SynthRule.mk 1 "gen-002" none "border_radius" "!=" "\"0px\"" "warning" 1
      "extracted" "msg") "\"0px\"" "8px" rfl (by decide)

/-- C9 counterexample: a log with a generic property and a typography property
synthesizes rules `gen-001`, `gen-002`, `typ-003`, `typ-004` — the counter is
global, so the `typ` prefix starts at suffix 003, not at 001. -/
theorem rule_ids_per_prefix_counterexample :
    (synthesize_rules_from_patterns c9Log 1 (6/10)).map (fun r => r.rule_id) =
      ["gen-001", "gen-002", "typ-003", "typ-004"] ∧
    ((synthesize_rules_from_patterns c9Log 1 (6/10)).filter
      (fun r => pyStartsWith r.rule_id "typ-")).map (fun r => r.rule_id) ≠
      ["typ-001", "typ-002"] :=
  ⟨by decide, by decide⟩

/-- The lengths and final counter of `emitRules`. -/
theorem emitRules_len (session_id : Int) (pfx : String) (ct : Option String)
    (confidence : ℚ) (op : String) (pairs : List (String × PyVal)) :
    ∀ counter,
      (emitRules session_id pfx ct confidence op counter pairs).1.length = pairs.length ∧
      (emitRules session_id pfx ct confidence op counter pairs).2 = counter + pairs.length := by
  induction pairs with
  | nil => intro counter; exact ⟨rfl, by simp [emitRules]⟩
  | cons pv rest ih =>
    obtain ⟨p, v⟩ := pv
    intro counter
    obtain ⟨ihlen, ihc⟩ := ih (counter + 1)
    constructor
    · simp only [emitRules, List.length_cons, ihlen]
    · simp only [emitRules, List.length_cons]
      omega

/-- Every rule emitted by `emitRules` carries the next counter value in its
identifier. -/
theorem emitRules_ids (session_id : Int) (pfx : String) (ct : Option String)
    (confidence : ℚ) (op : String) (pairs : List (String × PyVal)) :
    ∀ counter,
      idsSequentialFrom (emitRules session_id pfx ct confidence op counter pairs).1 counter := by
  induction pairs with
  | nil => intro counter i h; simp [emitRules] at h
  | cons pv rest ih =>
    obtain ⟨p, v⟩ := pv
    intro counter i h
    match i with
    | 0 => exact ⟨pfx, by simp [emitRules]⟩
    | j + 1 =>
      have hj : j < (emitRules session_id pfx ct confidence op (counter + 1) rest).1.length := by
        simp only [emitRules, List.length_cons] at h
        omega
      obtain ⟨P, hP⟩ := ih (counter + 1) j hj
      refine ⟨P, ?_⟩
      have harith : counter + 1 + j + 1 = counter + (j + 1) + 1 := by omega
      rw [← harith]
      simpa [emitRules] using hP

/-- Counter-sequential identifiers transport along an equality of the
counter. -/
theorem idsSequentialFrom_of_eq (l : List SynthRule) (c c2 : Nat)
    (h : idsSequentialFrom l c) (he : c = c2) : idsSequentialFrom l c2 := he ▸ h

/-- Concatenation preserves counter-sequential identifiers. -/
theorem idsSequentialFrom_append (l₁ l₂ : List SynthRule) (counter : Nat)
    (h₁ : idsSequentialFrom l₁ counter)
    (h₂ : idsSequentialFrom l₂ (counter + l₁.length)) :
    idsSequentialFrom (l₁ ++ l₂) counter := by
  intro i h
  by_cases hi : i < l₁.length
  · obtain ⟨p, hp⟩ := h₁ i hi
    refine ⟨p, ?_⟩
    rw [List.get_eq_getElem, List.getElem_append, dif_pos hi]
    rw [List.get_eq_getElem] at hp
    exact hp
  · have hlen : i - l₁.length < l₂.length := by
      rw [List.length_append] at h
      omega
    obtain ⟨p, hp⟩ := h₂ (i - l₁.length) hlen
    refine ⟨p, ?_⟩
    rw [List.get_eq_getElem, List.getElem_append, dif_neg hi]
    rw [List.get_eq_getElem] at hp
    rw [hp]
    congr 2
    omega

/-- One surviving property's rules: the counter advances by exactly their
number, and their identifiers are counter-sequential. -/
theorem synthProp_spec (session_id : Int) (prop : String) (data : PropPref) :
    ∀ counter,
      (synthProp session_id counter prop data).2 =
        counter + (synthProp session_id counter prop data).1.length ∧
      idsSequentialFrom (synthProp session_id counter prop data).1 counter := by
  intro counter
  obtain ⟨hlen1, hc1⟩ := emitRules_len session_id (rulePrefix (infer_component_type prop))
    (infer_component_type prop) data.confidence "=" (prefPairsOf prop data) counter
  obtain ⟨hlen2, hc2⟩ := emitRules_len session_id (rulePrefix (infer_component_type prop))
    (infer_component_type prop) data.confidence "!=" (rejPairsOf prop data)
    ((emitRules session_id (rulePrefix (infer_component_type prop))
      (infer_component_type prop) data.confidence "=" counter (prefPairsOf prop data)).2)
  constructor
  · simp only [synthProp, List.length_append]
    omega
  · apply idsSequentialFrom_append
    · exact emitRules_ids session_id (rulePrefix (infer_component_type prop))
        (infer_component_type prop) data.confidence "=" (prefPairsOf prop data) counter
    · refine idsSequentialFrom_of_eq _ _ _
        (emitRules_ids session_id (rulePrefix (infer_component_type prop))
          (infer_component_type prop) data.confidence "!=" (rejPairsOf prop data)
          ((emitRules session_id (rulePrefix (infer_component_type prop))
            (infer_component_type prop) data.confidence "=" counter
            (prefPairsOf prop data)).2)) ?_
      omega

/-- The whole synthesis loop emits counter-sequential identifiers. -/
theorem synthGo_ids (session_id : Int) (min_confidence : ℚ)
    (agg : List (String × PropPref)) :
    ∀ counter, idsSequentialFrom (synthGo session_id min_confidence counter agg) counter := by
  induction agg with
  | nil => intro counter i h; simp [synthGo] at h
  | cons pd rest ih =>
    obtain ⟨prop, data⟩ := pd
    intro counter
    by_cases hconf : data.confidence < min_confidence
    · have heq : synthGo session_id min_confidence counter ((prop, data) :: rest) =
          synthGo session_id min_confidence counter rest := by
        simp only [synthGo, if_pos hconf]
      rw [heq]
      exact ih counter
    · simp only [synthGo, if_neg hconf]
      apply idsSequentialFrom_append
      · exact (synthProp_spec session_id prop data counter).2
      · exact idsSequentialFrom_of_eq _ _ _
          (ih (synthProp session_id counter prop data).2)
          (synthProp_spec session_id prop data counter).1

/-- C9 (amended): rule identifiers are assigned from a single global counter
across all properties — the i-th rule emitted by
`synthesize_rules_from_patterns` (any prefix) carries the numeric suffix
`i + 1`, zero-padded to three digits; suffixes are therefore sequential across
the whole emission, not per component prefix. -/
theorem rule_ids_globally_sequential (comparison_results : List ComparisonResult)
    (session_id : Int) (min_confidence : ℚ) (i : Nat)
    (h : i < (synthesize_rules_from_patterns comparison_results session_id
      min_confidence).length) :
    ∃ p, ((synthesize_rules_from_patterns comparison_results session_id
      min_confidence).get ⟨i, h⟩).rule_id = p ++ "-" ++ pad3 (i + 1) := by
  obtain ⟨p, hp⟩ := synthGo_ids session_id min_confidence
    (aggregate_property_preferences comparison_results) 0 i h
  exact ⟨p, by simpa using hp⟩

/-- Witness for C9 (amended): the third rule of the demonstration log's
synthesis carries suffix 003. -/
theorem rule_ids_globally_sequential_witness :
    ∃ p, ((synthesize_rules_from_patterns c9Log 1 (6/10)).get
      ⟨2, by decide⟩).rule_id = p ++ "-" ++ pad3 (2 + 1) :=
  rule_ids_globally_sequential c9Log 1 (6/10) 2 (by decide)

/-- Splitting at an `=` separator is unambiguous when neither prefix contains
`=`. -/
theorem eq_sep_append_inj (as bs cs ds : List Char)
    (ha : '=' ∉ as) (hc : '=' ∉ cs)
    (h : as ++ '=' :: bs = cs ++ '=' :: ds) : as = cs ∧ bs = ds := by
  induction as generalizing cs with
  | nil =>
    cases cs with
    | nil => simpa using h
    | cons c cs2 =>
      simp only [List.nil_append, List.cons_append, List.cons.injEq] at h
      exact absurd (h.1 ▸ List.mem_cons_self c cs2) hc
  | cons a as2 ih =>
    cases cs with
    | nil =>
      simp only [List.cons_append, List.nil_append, List.cons.injEq] at h
      exact absurd (h.1 ▸ List.mem_cons_self a as2) ha
    | cons c cs2 =>
      simp only [List.cons_append, List.cons.injEq] at h
      have ha2 : '=' ∉ as2 := fun hx => ha (List.mem_cons_of_mem a hx)
      have hc2 : '=' ∉ cs2 := fun hx => hc (List.mem_cons_of_mem c hx)
      obtain ⟨h1, h2⟩ := ih cs2 ha2 hc2 h.2
      exact ⟨by rw [h.1, h1], h2⟩

/-- The character data of a vote key. -/
theorem mkKey_data (p v : String) : (mkKey p v).data = p.data ++ '=' :: v.data := by
  unfold mkKey
  rw [String.data_append, String.data_append]
  have he : "=".data = ['='] := rfl
  rw [he]
  simp

/-- First-occurrence deduplication of the empty list. -/
theorem dedupKeepFirst_nil : dedupKeepFirst [] = [] := rfl

/-- Vote keys of `=`-free properties are injective. -/
theorem mkKey_inj (p v q w : String) (hp : '=' ∉ p.data) (hq : '=' ∉ q.data)
    (h : mkKey p v = mkKey q w) : p = q ∧ v = w := by
  have hd : (mkKey p v).data = (mkKey q w).data := congrArg String.data h
  rw [mkKey_data, mkKey_data] at hd
  obtain ⟨h1, h2⟩ := eq_sep_append_inj p.data v.data q.data w.data hp hq hd
  exact ⟨String.ext h1, String.ext h2⟩

/-- `splitKeyOnce` recovers the parts of a key with an `=`-free property. -/
theorem splitKeyOnce_mkKey (p v : String) (hp : '=' ∉ p.data) :
    splitKeyOnce (mkKey p v) = some (p, v) := by
  unfold splitKeyOnce
  rw [mkKey_data]
  have htake : (p.data ++ '=' :: v.data).takeWhile (fun c => decide (¬ c = '=')) = p.data := by
    rw [List.takeWhile_append]
    have hself : p.data.takeWhile (fun c => decide (¬ c = '=')) = p.data :=
      List.takeWhile_eq_self_iff.mpr (fun c hcm => by
        simp only [decide_eq_true_eq]
        exact fun he => hp (he ▸ hcm))
    rw [hself]
    simp
  have hdrop : (p.data ++ '=' :: v.data).dropWhile (fun c => decide (¬ c = '=')) =
      '=' :: v.data := by
    rw [List.dropWhile_append]
    have hself : p.data.dropWhile (fun c => decide (¬ c = '=')) = [] :=
      List.dropWhile_eq_nil_iff.mpr (fun c hcm => by
        simp only [decide_eq_true_eq]
        exact fun he => hp (he ▸ hcm))
    rw [hself]
    simp [List.dropWhile_cons]
  rw [hdrop, htake]

/-- `dedupKeepFirstAux` ignores the exact fuel as long as it suffices. -/
theorem dedupKeepFirstAux_congr : ∀ (f1 f2 : Nat) (l : List String),
    l.length ≤ f1 → l.length ≤ f2 →
    dedupKeepFirstAux f1 l = dedupKeepFirstAux f2 l := by
  intro f1
  induction f1 with
  | zero =>
    intro f2 l h1 _
    have : l = [] := List.eq_nil_of_length_eq_zero (Nat.le_zero.mp h1)
    subst this
    cases f2 <;> rfl
  | succ f ih =>
    intro f2 l h1 h2
    cases l with
    | nil => cases f2 <;> rfl
    | cons k rest =>
      cases f2 with
      | zero => simp at h2
      | succ g =>
        simp only [dedupKeepFirstAux, List.cons.injEq, true_and]
        apply ih
        · exact le_trans (List.length_filter_le _ _) (by simpa using h1)
        · exact le_trans (List.length_filter_le _ _) (by simpa using h2)

/-- Unfolding equation for `dedupKeepFirst` on a cons cell. -/
theorem dedupKeepFirst_cons (k : String) (rest : List String) :
    dedupKeepFirst (k :: rest) =
      k :: dedupKeepFirst (rest.filter (fun x => decide (¬ x = k))) := by
  unfold dedupKeepFirst
  simp only [List.length_cons, dedupKeepFirstAux, List.cons.injEq, true_and]
  exact dedupKeepFirstAux_congr rest.length _ _
    (List.length_filter_le _ _) (Nat.le_refl _)

/-- Membership is preserved by first-occurrence deduplication. -/
theorem mem_dedupKeepFirst (x : String) : ∀ (n : Nat) (l : List String),
    l.length ≤ n → (x ∈ dedupKeepFirst l ↔ x ∈ l) := by
  intro n
  induction n with
  | zero =>
    intro l h
    have : l = [] := List.eq_nil_of_length_eq_zero (Nat.le_zero.mp h)
    subst this
    simp [dedupKeepFirst_nil]
  | succ m ih =>
    intro l h
    cases l with
    | nil => simp [dedupKeepFirst_nil]
    | cons k rest =>
      rw [dedupKeepFirst_cons]
      have hlen : (rest.filter (fun x => decide (¬ x = k))).length ≤ m :=
        le_trans (List.length_filter_le _ _) (by simpa using h)
      constructor
      · intro hx
        rcases List.mem_cons.mp hx with hk | hr
        · exact hk ▸ List.mem_cons_self k rest
        · have := (ih _ hlen).mp hr
          exact List.mem_cons_of_mem k (List.mem_filter.mp this).1
      · intro hx
        rcases List.mem_cons.mp hx with hk | hr
        · exact hk ▸ List.mem_cons_self k _
        · by_cases hxk : x = k
          · exact hxk ▸ List.mem_cons_self k _
          · refine List.mem_cons_of_mem k ((ih _ hlen).mpr ?_)
            exact List.mem_filter.mpr ⟨hr, by simpa using hxk⟩

/-- Filters commute. -/
theorem filter_swap (p q : String → Bool) (l : List String) :
    (l.filter q).filter p = (l.filter p).filter q := by
  rw [List.filter_filter, List.filter_filter]
  apply List.filter_congr
  intro a _
  exact Bool.and_comm (p a) (q a)

/-- Filtering commutes with first-occurrence deduplication. -/
theorem filter_dedupKeepFirst (p : String → Bool) : ∀ (n : Nat) (l : List String),
    l.length ≤ n → (dedupKeepFirst l).filter p = dedupKeepFirst (l.filter p) := by
  intro n
  induction n with
  | zero =>
    intro l h
    have : l = [] := List.eq_nil_of_length_eq_zero (Nat.le_zero.mp h)
    subst this
    rfl
  | succ m ih =>
    intro l h
    cases l with
    | nil => rfl
    | cons k rest =>
      rw [dedupKeepFirst_cons, List.filter_cons]
      have hlen : (rest.filter (fun x => decide (¬ x = k))).length ≤ m :=
        le_trans (List.length_filter_le _ _) (by simpa using h)
      cases hp : p k
      · simp only [Bool.false_eq_true, if_false, List.filter_cons, hp]
        rw [ih _ hlen, filter_swap]
        have hid : (rest.filter p).filter (fun x => decide (¬ x = k)) = rest.filter p := by
          apply List.filter_eq_self.mpr
          intro a ha
          simp only [decide_eq_true_eq]
          intro he
          rw [he] at ha
          rw [List.mem_filter, hp] at ha
          exact absurd ha.2 (by simp)
        rw [hid]
      · simp only [if_true, List.filter_cons, hp]
        rw [dedupKeepFirst_cons, ih _ hlen, filter_swap]

/-- A `filterMap` whose function is an if-guarded `some` is a filtered map. -/
theorem filterMap_if_eq_map_filter {α : Type} {β : Type} (f : α → Option β)
    (p : α → Bool) (g : α → β)
    (hf : ∀ a, f a = if p a then some (g a) else none) :
    ∀ l : List α, l.filterMap f = (l.filter p).map g := by
  intro l
  induction l with
  | nil => rfl
  | cons a rest ih =>
    rw [List.filterMap_cons, List.filter_cons, hf a]
    cases hp : p a
    · simp only [Bool.false_eq_true, if_false]
      exact ih
    · simp only [if_true, List.map_cons]
      rw [ih]

/-- In a map with nodup keys, a key determines its value. -/
theorem eq_of_nodup_keys (l : List (String × String))
    (hn : (l.map Prod.fst).Nodup) (k v1 v2 : String)
    (h1 : (k, v1) ∈ l) (h2 : (k, v2) ∈ l) : v1 = v2 := by
  induction l with
  | nil => cases h1
  | cons a rest ih =>
    simp only [List.map_cons, List.nodup_cons] at hn
    rcases List.mem_cons.mp h1 with h1a | h1r
    · rcases List.mem_cons.mp h2 with h2a | h2r
      · rw [← h1a] at h2a
        exact ((Prod.mk.injEq _ _ _ _ |>.mp h2a).2).symm
      · exfalso
        apply hn.1
        have hmm : (k, v2).1 ∈ rest.map Prod.fst := List.mem_map_of_mem Prod.fst h2r
        rw [← h1a]
        exact hmm
    · rcases List.mem_cons.mp h2 with h2a | h2r
      · exfalso
        apply hn.1
        have hmm : (k, v1).1 ∈ rest.map Prod.fst := List.mem_map_of_mem Prod.fst h1r
        rw [← h2a]
        exact hmm
      · exact ih hn.2 h1r h2r

/-- A legacy record with a definite choice produces exactly its two maps'
events. -/
theorem recordVoteEvents_legacy (r : ComparisonResult)
    (hq : r.question_responses = none) (hc : r.choice = "a" ∨ r.choice = "b") :
    recordVoteEvents r =
      (chosenStyles r).map (fun pv => (mkKey pv.1 pv.2, true)) ++
        (rejectedStyles r).map (fun pv => (mkKey pv.1 pv.2, false)) := by
  unfold recordVoteEvents
  rw [hq]
  unfold legacyVoteEvents
  have hne : ¬ r.choice = "none" := by
    rcases hc with h | h <;> rw [h] <;> decide
  rw [if_neg hne]

/-- A nodup list counts a member exactly once. -/
theorem countP_eq_one_of_nodup_mem (l : List (String × String)) (a : String × String)
    (hn : l.Nodup) (hmem : a ∈ l) :
    l.countP (fun x => decide (x = a)) = 1 := by
  induction l with
  | nil => cases hmem
  | cons b rest ih =>
    rw [List.nodup_cons] at hn
    rw [List.countP_cons]
    rcases List.mem_cons.mp hmem with hab | har
    · have hz : rest.countP (fun x => decide (x = a)) = 0 := by
        rw [List.countP_eq_zero]
        intro x hx
        simp only [decide_eq_true_eq]
        intro hxa
        apply hn.1
        rw [← hab, ← hxa]
        exact hx
      rw [hz]
      simp [hab]
    · have hba : ¬ b = a := by
        intro hba
        exact hn.1 (hba ▸ har)
      rw [ih hn.2 har]
      simp [hba]

/-- Counting a key once in a well-formed style map that contains it. -/
theorem countP_mkKey_of_mem (m : List (String × String)) (k v : String)
    (hk : '=' ∉ k.data) (hfree : ∀ pv ∈ m, '=' ∉ pv.1.data)
    (hn : (m.map Prod.fst).Nodup) (hmem : (k, v) ∈ m) :
    m.countP (fun pv => decide (mkKey pv.1 pv.2 = mkKey k v)) = 1 := by
  have hpt : ∀ pv ∈ m,
      (decide (mkKey pv.1 pv.2 = mkKey k v) = true) ↔ (decide (pv = (k, v)) = true) := by
    intro pv hpv
    simp only [decide_eq_true_eq]
    constructor
    · intro hd
      obtain ⟨hp, hv⟩ := mkKey_inj pv.1 pv.2 k v (hfree pv hpv) hk hd
      have hpe : pv = (k, v) := Prod.ext hp hv
      exact hpe
    · intro hb
      subst hb
      rfl
  rw [List.countP_congr hpt]
  exact countP_eq_one_of_nodup_mem m (k, v) (List.Nodup.of_map Prod.fst hn) hmem

/-- Counting a key zero times in a well-formed style map missing it. -/
theorem countP_mkKey_of_not_mem (m : List (String × String)) (k v : String)
    (hk : '=' ∉ k.data) (hfree : ∀ pv ∈ m, '=' ∉ pv.1.data)
    (habs : (k, v) ∉ m) :
    m.countP (fun pv => decide (mkKey pv.1 pv.2 = mkKey k v)) = 0 := by
  rw [List.countP_eq_zero]
  intro pv hpv
  simp only [decide_eq_true_eq]
  intro hmk
  obtain ⟨hp, hv⟩ := mkKey_inj pv.1 pv.2 k v (hfree pv hpv) hk hmk
  have hpe : pv = (k, v) := Prod.ext hp hv
  exact habs (hpe ▸ hpv)

/-- The four per-record tallies of the Scenario-A keys. -/
theorem scenario_record_counts (r : ComparisonResult)
    (hq : r.question_responses = none) (hc : r.choice = "a" ∨ r.choice = "b")
    (h8 : ("border_radius", "8px") ∈ chosenStyles r)
    (h0 : ("border_radius", "0px") ∈ rejectedStyles r)
    (hna : (r.option_a_styles.map Prod.fst).Nodup)
    (hnb : (r.option_b_styles.map Prod.fst).Nodup)
    (hfree : ∀ pv ∈ r.option_a_styles ++ r.option_b_styles, '=' ∉ pv.1.data) :
    (recordVoteEvents r).countP
      (fun e => decide (e.1 = mkKey "border_radius" "8px") && e.2) = 1 ∧
    (recordVoteEvents r).countP
      (fun e => decide (e.1 = mkKey "border_radius" "8px") && !e.2) = 0 ∧
    (recordVoteEvents r).countP
      (fun e => decide (e.1 = mkKey "border_radius" "0px") && e.2) = 0 ∧
    (recordVoteEvents r).countP
      (fun e => decide (e.1 = mkKey "border_radius" "0px") && !e.2) = 1 := by
  have hnc : ((chosenStyles r).map Prod.fst).Nodup := by
    unfold chosenStyles
    split <;> assumption
  have hnr : ((rejectedStyles r).map Prod.fst).Nodup := by
    unfold rejectedStyles
    split <;> assumption
  have hfc : ∀ pv ∈ chosenStyles r, '=' ∉ pv.1.data := by
    intro pv hpv
    apply hfree
    unfold chosenStyles at hpv
    rw [List.mem_append]
    by_cases hch : r.choice = "a"
    · rw [if_pos hch] at hpv; exact Or.inl hpv
    · rw [if_neg hch] at hpv; exact Or.inr hpv
  have hfr : ∀ pv ∈ rejectedStyles r, '=' ∉ pv.1.data := by
    intro pv hpv
    apply hfree
    unfold rejectedStyles at hpv
    rw [List.mem_append]
    by_cases hch : r.choice = "a"
    · rw [if_pos hch] at hpv; exact Or.inr hpv
    · rw [if_neg hch] at hpv; exact Or.inl hpv
  have hkfree : '=' ∉ ("border_radius" : String).data := by decide
  have habs8 : ("border_radius", "8px") ∉ rejectedStyles r := by
    intro hmem
    have := eq_of_nodup_keys (rejectedStyles r) hnr "border_radius" "8px" "0px" hmem h0
    exact absurd this (by decide)
  have habs0 : ("border_radius", "0px") ∉ chosenStyles r := by
    intro hmem
    have := eq_of_nodup_keys (chosenStyles r) hnc "border_radius" "0px" "8px" hmem h8
    exact absurd this (by decide)
  rw [recordVoteEvents_legacy r hq hc]
  have hsplit : ∀ (k v : String), '=' ∉ k.data → (∀ b : Bool,
      ((chosenStyles r).map (fun pv => (mkKey pv.1 pv.2, true)) ++
        (rejectedStyles r).map (fun pv => (mkKey pv.1 pv.2, false))).countP
        (fun e => decide (e.1 = mkKey k v) && (if b then e.2 else !e.2)) =
      (if b then (chosenStyles r).countP
          (fun pv => decide (mkKey pv.1 pv.2 = mkKey k v))
        else (rejectedStyles r).countP
          (fun pv => decide (mkKey pv.1 pv.2 = mkKey k v)))) := by
    intro k v _ b
    rw [List.countP_append, List.countP_map, List.countP_map]
    cases b
    · simp only [if_false, Bool.false_eq_true]
      have hz : (chosenStyles r).countP
          ((fun e => decide (e.1 = mkKey k v) && !e.2) ∘
            (fun pv => (mkKey pv.1 pv.2, true))) = 0 := by
        rw [List.countP_eq_zero]
        intro pv _
        simp
      have hsame : (rejectedStyles r).countP
          ((fun e => decide (e.1 = mkKey k v) && !e.2) ∘
            (fun pv => (mkKey pv.1 pv.2, false))) =
          (rejectedStyles r).countP (fun pv => decide (mkKey pv.1 pv.2 = mkKey k v)) := by
        apply List.countP_congr
        intro pv _
        simp
      rw [hz, hsame]
      omega
    · simp only [if_true]
      have hz : (rejectedStyles r).countP
          ((fun e => decide (e.1 = mkKey k v) && e.2) ∘
            (fun pv => (mkKey pv.1 pv.2, false))) = 0 := by
        rw [List.countP_eq_zero]
        intro pv _
        simp
      have hsame : (chosenStyles r).countP
          ((fun e => decide (e.1 = mkKey k v) && e.2) ∘
            (fun pv => (mkKey pv.1 pv.2, true))) =
          (chosenStyles r).countP (fun pv => decide (mkKey pv.1 pv.2 = mkKey k v)) := by
        apply List.countP_congr
        intro pv _
        simp
      rw [hz, hsame]
      omega
  refine ⟨?_, ?_, ?_, ?_⟩
  · have := hsplit "border_radius" "8px" hkfree true
    simp only [if_true] at this
    rw [this]
    exact countP_mkKey_of_mem _ _ _ hkfree hfc hnc h8
  · have := hsplit "border_radius" "8px" hkfree false
    simp only [if_false, Bool.false_eq_true] at this
    rw [this]
    exact countP_mkKey_of_not_mem _ _ _ hkfree hfr habs8
  · have := hsplit "border_radius" "0px" hkfree true
    simp only [if_true] at this
    rw [this]
    exact countP_mkKey_of_not_mem _ _ _ hkfree hfc habs0
  · have := hsplit "border_radius" "0px" hkfree false
    simp only [if_false, Bool.false_eq_true] at this
    rw [this]
    exact countP_mkKey_of_mem _ _ _ hkfree hfr hnr h0

/-- A map whose values are all 1 sums to the length. -/
theorem sum_map_eq_length {α : Type} (l : List α) (g : α → Nat)
    (h : ∀ x ∈ l, g x = 1) : (l.map g).sum = l.length := by
  induction l with
  | nil => rfl
  | cons a rest ih =>
    simp only [List.map_cons, List.sum_cons, List.length_cons]
    rw [h a (List.mem_cons_self a rest), ih (fun x hx => h x (List.mem_cons_of_mem a hx))]
    omega

/-- A map whose values are all 0 sums to 0. -/
theorem sum_map_eq_zero {α : Type} (l : List α) (g : α → Nat)
    (h : ∀ x ∈ l, g x = 0) : (l.map g).sum = 0 := by
  induction l with
  | nil => rfl
  | cons a rest ih =>
    simp only [List.map_cons, List.sum_cons]
    rw [h a (List.mem_cons_self a rest), ih (fun x hx => h x (List.mem_cons_of_mem a hx))]

/-- The Scenario-A tallies over a whole log. -/
theorem scenario_log_counts (log : List ComparisonResult)
    (hrec : ∀ r ∈ log, r.question_responses = none ∧
      (r.choice = "a" ∨ r.choice = "b") ∧
      ("border_radius", "8px") ∈ chosenStyles r ∧
      ("border_radius", "0px") ∈ rejectedStyles r ∧
      (r.option_a_styles.map Prod.fst).Nodup ∧
      (r.option_b_styles.map Prod.fst).Nodup ∧
      ∀ pv ∈ r.option_a_styles ++ r.option_b_styles, '=' ∉ pv.1.data) :
    chosenCount log (mkKey "border_radius" "8px") = log.length ∧
    rejectedCount log (mkKey "border_radius" "8px") = 0 ∧
    chosenCount log (mkKey "border_radius" "0px") = 0 ∧
    rejectedCount log (mkKey "border_radius" "0px") = log.length := by
  unfold chosenCount rejectedCount voteEvents
  rw [List.countP_flatMap, List.countP_flatMap, List.countP_flatMap, List.countP_flatMap]
  refine ⟨?_, ?_, ?_, ?_⟩
  · apply sum_map_eq_length
    intro r hr
    obtain ⟨hq, hc, h8, h0, hna, hnb, hfree⟩ := hrec r hr
    exact (scenario_record_counts r hq hc h8 h0 hna hnb hfree).1
  · apply sum_map_eq_zero
    intro r hr
    obtain ⟨hq, hc, h8, h0, hna, hnb, hfree⟩ := hrec r hr
    exact (scenario_record_counts r hq hc h8 h0 hna hnb hfree).2.1
  · apply sum_map_eq_zero
    intro r hr
    obtain ⟨hq, hc, h8, h0, hna, hnb, hfree⟩ := hrec r hr
    exact (scenario_record_counts r hq hc h8 h0 hna hnb hfree).2.2.1
  · apply sum_map_eq_length
    intro r hr
    obtain ⟨hq, hc, h8, h0, hna, hnb, hfree⟩ := hrec r hr
    exact (scenario_record_counts r hq hc h8 h0 hna hnb hfree).2.2.2

/-- Every tallied key has at least one vote. -/
theorem voteKeys_pos (log : List ComparisonResult) (k : String)
    (hk : k ∈ voteKeys log) :
    0 < chosenCount log k + rejectedCount log k := by
  unfold voteKeys at hk
  have hk2 : k ∈ (voteEvents log).map Prod.fst :=
    (mem_dedupKeepFirst k _ _ (Nat.le_refl _)).mp hk
  obtain ⟨e, he, hek⟩ := List.mem_map.mp hk2
  cases heb : e.2
  · have hp : 0 < rejectedCount log k := by
      unfold rejectedCount
      rw [List.countP_pos]
      exact ⟨e, he, by simp [hek, heb]⟩
    omega
  · have hp : 0 < chosenCount log k := by
      unfold chosenCount
      rw [List.countP_pos]
      exact ⟨e, he, by simp [hek, heb]⟩
    omega

/-- Since every tallied key has votes, `analyze_territory_mapping` is a plain
map over the vote keys. -/
theorem analyze_eq_map (log : List ComparisonResult) :
    analyze_territory_mapping log = (voteKeys log).map (fun key =>
      (key, (((chosenCount log key : ℚ) - (rejectedCount log key : ℚ)) /
        ((chosenCount log key : ℚ) + (rejectedCount log key : ℚ)) + 1) / 2)) := by
  unfold analyze_territory_mapping
  rw [← List.filterMap_eq_map]
  apply List.filterMap_congr
  intro k hk
  rw [if_pos (voteKeys_pos log k hk)]
  rfl

/-- Deduplication of a two-value list headed by the first value. -/
theorem dedupKeepFirst_pair (x y : String) (hxy : ¬ x = y) (t : List String)
    (hsub : ∀ z ∈ t, z = x ∨ z = y) (hy : y ∈ t) :
    dedupKeepFirst (x :: t) = [x, y] := by
  rw [dedupKeepFirst_cons]
  have hall : ∀ z ∈ t.filter (fun z => decide (¬ z = x)), z = y := by
    intro z hz
    rw [List.mem_filter] at hz
    rcases hsub z hz.1 with h | h
    · exact absurd h (by simpa using hz.2)
    · exact h
  have hymem : y ∈ t.filter (fun z => decide (¬ z = x)) :=
    List.mem_filter.mpr ⟨hy, by simpa using fun he => hxy he.symm⟩
  obtain ⟨c, ct, hct⟩ := List.exists_cons_of_ne_nil (List.ne_nil_of_mem hymem)
  rw [hct, dedupKeepFirst_cons]
  have hcy : c = y := hall c (hct ▸ List.mem_cons_self c ct)
  have hnil : ct.filter (fun z => decide (¬ z = c)) = [] := by
    rw [List.filter_eq_nil_iff]
    intro z hz
    have hzy : z = y := hall z (hct ▸ List.mem_cons_of_mem c hz)
    simp [hzy, hcy]
  rw [hnil, dedupKeepFirst_nil, hcy]

/-- The chosen map is one of the record's two style maps. -/
theorem chosenStyles_subset (r : ComparisonResult) (pv : String × String)
    (h : pv ∈ chosenStyles r) : pv ∈ r.option_a_styles ++ r.option_b_styles := by
  unfold chosenStyles at h
  rw [List.mem_append]
  by_cases hch : r.choice = "a"
  · rw [if_pos hch] at h; exact Or.inl h
  · rw [if_neg hch] at h; exact Or.inr h

/-- The rejected map is one of the record's two style maps. -/
theorem rejectedStyles_subset (r : ComparisonResult) (pv : String × String)
    (h : pv ∈ rejectedStyles r) : pv ∈ r.option_a_styles ++ r.option_b_styles := by
  unfold rejectedStyles at h
  rw [List.mem_append]
  by_cases hch : r.choice = "a"
  · rw [if_pos hch] at h; exact Or.inr h
  · rw [if_neg hch] at h; exact Or.inl h

/-- Key nodupness carries over to the chosen map. -/
theorem chosenStyles_nodup (r : ComparisonResult)
    (hna : (r.option_a_styles.map Prod.fst).Nodup)
    (hnb : (r.option_b_styles.map Prod.fst).Nodup) :
    ((chosenStyles r).map Prod.fst).Nodup := by
  unfold chosenStyles
  split <;> assumption

/-- Key nodupness carries over to the rejected map. -/
theorem rejectedStyles_nodup (r : ComparisonResult)
    (hna : (r.option_a_styles.map Prod.fst).Nodup)
    (hnb : (r.option_b_styles.map Prod.fst).Nodup) :
    ((rejectedStyles r).map Prod.fst).Nodup := by
  unfold rejectedStyles
  split <;> assumption

/-- Under the Scenario-A hypotheses every `border_radius` vote key is one of
the two scenario keys. -/
theorem scenario_key_dichotomy (log : List ComparisonResult)
    (hrec : ∀ r ∈ log, r.question_responses = none ∧
      (r.choice = "a" ∨ r.choice = "b") ∧
      ("border_radius", "8px") ∈ chosenStyles r ∧
      ("border_radius", "0px") ∈ rejectedStyles r ∧
      (r.option_a_styles.map Prod.fst).Nodup ∧
      (r.option_b_styles.map Prod.fst).Nodup ∧
      ∀ pv ∈ r.option_a_styles ++ r.option_b_styles, '=' ∉ pv.1.data) (k : String)
    (hk : k ∈ (voteEvents log).map Prod.fst)
    (hbr : (splitKeyOnce k).map Prod.fst = some "border_radius") :
    k = mkKey "border_radius" "8px" ∨ k = mkKey "border_radius" "0px" := by
  obtain ⟨e, he, hek⟩ := List.mem_map.mp hk
  obtain ⟨r, hr, her⟩ := List.mem_flatMap.mp he
  obtain ⟨hq, hc, h8, h0, hna, hnb, hfree⟩ := hrec r hr
  rw [recordVoteEvents_legacy r hq hc] at her
  rcases List.mem_append.mp her with hch | hrj
  · obtain ⟨pv, hpv, hpe⟩ := List.mem_map.mp hch
    have hkk : k = mkKey pv.1 pv.2 := by rw [← hek, ← hpe]
    have hfp : '=' ∉ pv.1.data := hfree pv (chosenStyles_subset r pv hpv)
    have hsplit : splitKeyOnce k = some (pv.1, pv.2) := by
      rw [hkk]
      exact splitKeyOnce_mkKey pv.1 pv.2 hfp
    rw [hsplit] at hbr
    have hbr2 : pv.1 = "border_radius" := by simpa using hbr
    have hmem2 : ("border_radius", pv.2) ∈ chosenStyles r := by
      rw [← hbr2]
      exact hpv
    have hv : pv.2 = "8px" := eq_of_nodup_keys (chosenStyles r)
      (chosenStyles_nodup r hna hnb) "border_radius" pv.2 "8px" hmem2 h8
    left
    rw [hkk, hbr2, hv]
  · obtain ⟨pv, hpv, hpe⟩ := List.mem_map.mp hrj
    have hkk : k = mkKey pv.1 pv.2 := by rw [← hek, ← hpe]
    have hfp : '=' ∉ pv.1.data := hfree pv (rejectedStyles_subset r pv hpv)
    have hsplit : splitKeyOnce k = some (pv.1, pv.2) := by
      rw [hkk]
      exact splitKeyOnce_mkKey pv.1 pv.2 hfp
    rw [hsplit] at hbr
    have hbr2 : pv.1 = "border_radius" := by simpa using hbr
    have hmem2 : ("border_radius", pv.2) ∈ rejectedStyles r := by
      rw [← hbr2]
      exact hpv
    have hv : pv.2 = "0px" := eq_of_nodup_keys (rejectedStyles r)
      (rejectedStyles_nodup r hna hnb) "border_radius" pv.2 "0px" hmem2 h0
    right
    rw [hkk, hbr2, hv]

/-- Under the Scenario-A hypotheses the `border_radius` vote keys, in first
appearance order, are exactly the `8px` key then the `0px` key. -/
theorem scenario_voteKeys_filter (r1 : ComparisonResult) (restLog : List ComparisonResult)
    (hrec : ∀ r ∈ r1 :: restLog, r.question_responses = none ∧
      (r.choice = "a" ∨ r.choice = "b") ∧
      ("border_radius", "8px") ∈ chosenStyles r ∧
      ("border_radius", "0px") ∈ rejectedStyles r ∧
      (r.option_a_styles.map Prod.fst).Nodup ∧
      (r.option_b_styles.map Prod.fst).Nodup ∧
      ∀ pv ∈ r.option_a_styles ++ r.option_b_styles, '=' ∉ pv.1.data) :
    (voteKeys (r1 :: restLog)).filter
      (fun key => decide ((splitKeyOnce key).map Prod.fst = some "border_radius")) =
      [mkKey "border_radius" "8px", mkKey "border_radius" "0px"] := by
  obtain ⟨hq1, hc1, h81, h01, hna1, hnb1, hfree1⟩ := hrec r1 (List.mem_cons_self r1 restLog)
  unfold voteKeys
  rw [filter_dedupKeepFirst _ ((voteEvents (r1 :: restLog)).map Prod.fst).length _
    (Nat.le_refl _)]
  have hvE : voteEvents (r1 :: restLog) = recordVoteEvents r1 ++ voteEvents restLog := by
    unfold voteEvents
    rw [List.flatMap_cons]
  rw [hvE, List.map_append, List.filter_append, recordVoteEvents_legacy r1 hq1 hc1,
    List.map_append, List.filter_append, List.map_map, List.map_map]
  have hdich : ∀ z ∈ ((voteEvents (r1 :: restLog)).map Prod.fst).filter
      (fun key => decide ((splitKeyOnce key).map Prod.fst = some "border_radius")),
      z = mkKey "border_radius" "8px" ∨ z = mkKey "border_radius" "0px" := by
    intro z hz
    rw [List.mem_filter] at hz
    exact scenario_key_dichotomy (r1 :: restLog) hrec z hz.1 (by simpa using hz.2)
  have hzmem : ∀ z, z ∈ ((chosenStyles r1).map
        ((fun e => e.1) ∘ fun pv => (mkKey pv.1 pv.2, true))).filter
        (fun key => decide ((splitKeyOnce key).map Prod.fst = some "border_radius")) ∨
      z ∈ ((rejectedStyles r1).map
        ((fun e => e.1) ∘ fun pv => (mkKey pv.1 pv.2, false))).filter
        (fun key => decide ((splitKeyOnce key).map Prod.fst = some "border_radius")) ∨
      z ∈ ((voteEvents restLog).map Prod.fst).filter
        (fun key => decide ((splitKeyOnce key).map Prod.fst = some "border_radius")) →
      z ∈ ((voteEvents (r1 :: restLog)).map Prod.fst).filter
        (fun key => decide ((splitKeyOnce key).map Prod.fst = some "border_radius")) := by
    intro z hz
    rw [hvE, List.map_append, List.filter_append, recordVoteEvents_legacy r1 hq1 hc1,
      List.map_append, List.filter_append, List.map_map, List.map_map]
    rcases hz with h | h | h
    · exact List.mem_append_left _ (List.mem_append_left _ h)
    · exact List.mem_append_left _ (List.mem_append_right _ h)
    · exact List.mem_append_right _ h
  have hK8mem : mkKey "border_radius" "8px" ∈ ((chosenStyles r1).map
      ((fun e => e.1) ∘ fun pv => (mkKey pv.1 pv.2, true))).filter
      (fun key => decide ((splitKeyOnce key).map Prod.fst = some "border_radius")) := by
    apply List.mem_filter.mpr
    constructor
    · have := List.mem_map_of_mem ((fun (e : String × Bool) => e.1) ∘
        fun pv : String × String => (mkKey pv.1 pv.2, true)) h81
      exact this
    · have hs : splitKeyOnce (mkKey "border_radius" "8px") = some ("border_radius", "8px") :=
        splitKeyOnce_mkKey _ _ (by decide)
      simp [hs]
  have hchAll : ∀ z ∈ ((chosenStyles r1).map
      ((fun e => e.1) ∘ fun pv => (mkKey pv.1 pv.2, true))).filter
      (fun key => decide ((splitKeyOnce key).map Prod.fst = some "border_radius")),
      z = mkKey "border_radius" "8px" := by
    intro z hz
    rw [List.mem_filter] at hz
    obtain ⟨pv, hpv, hpe⟩ := List.mem_map.mp hz.1
    have hkk : z = mkKey pv.1 pv.2 := hpe.symm
    have hfp : '=' ∉ pv.1.data := hfree1 pv (chosenStyles_subset r1 pv hpv)
    have hsplit : splitKeyOnce z = some (pv.1, pv.2) := by
      rw [hkk]
      exact splitKeyOnce_mkKey pv.1 pv.2 hfp
    have hbr2 : pv.1 = "border_radius" := by
      have := hz.2
      rw [hsplit] at this
      simpa using this
    have hmem2 : ("border_radius", pv.2) ∈ chosenStyles r1 := by
      rw [← hbr2]
      exact hpv
    have hv : pv.2 = "8px" := eq_of_nodup_keys (chosenStyles r1)
      (chosenStyles_nodup r1 hna1 hnb1) "border_radius" pv.2 "8px" hmem2 h81
    rw [hkk, hbr2, hv]
  obtain ⟨c, ct, hct⟩ := List.exists_cons_of_ne_nil (List.ne_nil_of_mem hK8mem)
  have hcK8 : c = mkKey "border_radius" "8px" :=
    hchAll c (hct ▸ List.mem_cons_self c ct)
  rw [hct, hcK8, List.cons_append, List.cons_append]
  apply dedupKeepFirst_pair _ _ (by decide)
  · intro z hz
    apply hdich
    apply hzmem
    rcases List.mem_append.mp hz with hz1 | hz2
    · rcases List.mem_append.mp hz1 with hz3 | hz4
      · exact Or.inl (by rw [hct, hcK8]; exact List.mem_cons_of_mem _ hz3)
      · exact Or.inr (Or.inl hz4)
    · exact Or.inr (Or.inr hz2)
  · have hK0mem : mkKey "border_radius" "0px" ∈ ((rejectedStyles r1).map
        ((fun e => e.1) ∘ fun pv => (mkKey pv.1 pv.2, false))).filter
        (fun key => decide ((splitKeyOnce key).map Prod.fst = some "border_radius")) := by
      apply List.mem_filter.mpr
      constructor
      · have := List.mem_map_of_mem ((fun (e : String × Bool) => e.1) ∘
          fun pv : String × String => (mkKey pv.1 pv.2, false)) h01
        exact this
      · have hs : splitKeyOnce (mkKey "border_radius" "0px") =
            some ("border_radius", "0px") := splitKeyOnce_mkKey _ _ (by decide)
        simp [hs]
    rw [List.mem_append]
    left
    rw [List.mem_append]
    right
    exact hK0mem

/-- `propScores` over a per-key score map is a map over the filtered keys. -/
theorem propScores_map_aux (sfun : String → ℚ) (prop : String) (keys : List String) :
    propScores (keys.map (fun k => (k, sfun k))) prop =
      (keys.filter (fun key => decide ((splitKeyOnce key).map Prod.fst = some prop))).map
        (fun k => (((splitKeyOnce k).getD ("", "")).2, sfun k)) := by
  unfold propScores
  rw [List.filterMap_map]
  apply filterMap_if_eq_map_filter
  intro k
  cases hs : splitKeyOnce k with
  | none => simp [Function.comp, hs]
  | some pv =>
    by_cases hp : pv.1 = prop
    · simp [Function.comp, hs, hp]
    · simp [Function.comp, hs, hp]

/-- Under the Scenario-A hypotheses, the `border_radius` score sequence is
`8px` at score 1 followed by `0px` at score 0. -/
theorem scenario_propScores (r1 : ComparisonResult) (restLog : List ComparisonResult)
    (hrec : ∀ r ∈ r1 :: restLog, r.question_responses = none ∧
      (r.choice = "a" ∨ r.choice = "b") ∧
      ("border_radius", "8px") ∈ chosenStyles r ∧
      ("border_radius", "0px") ∈ rejectedStyles r ∧
      (r.option_a_styles.map Prod.fst).Nodup ∧
      (r.option_b_styles.map Prod.fst).Nodup ∧
      ∀ pv ∈ r.option_a_styles ++ r.option_b_styles, '=' ∉ pv.1.data) :
    propScores (analyze_territory_mapping (r1 :: restLog)) "border_radius" =
      [("8px", (1 : ℚ)), ("0px", (0 : ℚ))] := by
  rw [analyze_eq_map, propScores_map_aux, scenario_voteKeys_filter r1 restLog hrec]
  obtain ⟨hc8, hr8, hc0, hr0⟩ := scenario_log_counts (r1 :: restLog) hrec
  have hs8 : splitKeyOnce (mkKey "border_radius" "8px") = some ("border_radius", "8px") :=
    splitKeyOnce_mkKey _ _ (by decide)
  have hs0 : splitKeyOnce (mkKey "border_radius" "0px") = some ("border_radius", "0px") :=
    splitKeyOnce_mkKey _ _ (by decide)
  have hn : ((r1 :: restLog).length : ℚ) ≠ 0 := by
    have hpos : 0 < (r1 :: restLog).length := by simp
    exact_mod_cast Nat.pos_iff_ne_zero.mp hpos
  simp only [List.map_cons, List.map_nil, hs8, hs0, Option.getD_some, hc8, hr8, hc0, hr0]
  rw [List.cons.injEq, List.cons.injEq, Prod.mk.injEq, Prod.mk.injEq]
  refine ⟨⟨rfl, ?_⟩, ⟨rfl, ?_⟩, rfl⟩
  · rw [Nat.cast_zero, sub_zero, add_zero, div_self hn]
    norm_num
  · rw [Nat.cast_zero, zero_sub, zero_add, neg_div, div_self hn]
    norm_num

/-- Under the Scenario-A hypotheses, `aggregate_property_preferences` contains
the `border_radius` entry with preferred `8px`, rejected `0px`, confidence
1. -/
theorem scenario_aggregate_mem (r1 : ComparisonResult) (restLog : List ComparisonResult)
    (hrec : ∀ r ∈ r1 :: restLog, r.question_responses = none ∧
      (r.choice = "a" ∨ r.choice = "b") ∧
      ("border_radius", "8px") ∈ chosenStyles r ∧
      ("border_radius", "0px") ∈ rejectedStyles r ∧
      (r.option_a_styles.map Prod.fst).Nodup ∧
      (r.option_b_styles.map Prod.fst).Nodup ∧
      ∀ pv ∈ r.option_a_styles ++ r.option_b_styles, '=' ∉ pv.1.data) :
    ("border_radius", PropPref.mk ["8px"] ["0px"] 1) ∈
      aggregate_property_preferences (r1 :: restLog) := by
  obtain ⟨hq1, hc1, h81, h01, hna1, hnb1, hfree1⟩ := hrec r1 (List.mem_cons_self r1 restLog)
  have hs8 : splitKeyOnce (mkKey "border_radius" "8px") = some ("border_radius", "8px") :=
    splitKeyOnce_mkKey _ _ (by decide)
  have hbrmem : "border_radius" ∈ aggKeys (analyze_territory_mapping (r1 :: restLog)) := by
    unfold aggKeys
    rw [mem_dedupKeepFirst _ _ _ (Nat.le_refl _)]
    rw [List.mem_filterMap]
    refine ⟨(mkKey "border_radius" "8px",
      (((chosenCount (r1 :: restLog) (mkKey "border_radius" "8px") : ℚ) -
        (rejectedCount (r1 :: restLog) (mkKey "border_radius" "8px") : ℚ)) /
        ((chosenCount (r1 :: restLog) (mkKey "border_radius" "8px") : ℚ) +
          (rejectedCount (r1 :: restLog) (mkKey "border_radius" "8px") : ℚ)) + 1) / 2), ?_, ?_⟩
    · rw [analyze_eq_map]
      apply List.mem_map_of_mem
      unfold voteKeys
      rw [mem_dedupKeepFirst _ _ _ (Nat.le_refl _)]
      apply List.mem_map.mpr
      refine ⟨(mkKey "border_radius" "8px", true), ?_, rfl⟩
      apply List.mem_flatMap.mpr
      refine ⟨r1, List.mem_cons_self r1 restLog, ?_⟩
      rw [recordVoteEvents_legacy r1 hq1 hc1]
      apply List.mem_append_left
      exact List.mem_map_of_mem (fun pv => (mkKey pv.1 pv.2, true)) h81
    · simp [hs8]
  unfold aggregate_property_preferences
  have hgoal : ("border_radius", mkPropPref (propScores
      (analyze_territory_mapping (r1 :: restLog)) "border_radius")) ∈
      (aggKeys (analyze_territory_mapping (r1 :: restLog))).map (fun prop =>
        (prop, mkPropPref (propScores (analyze_territory_mapping (r1 :: restLog)) prop))) :=
    List.mem_map_of_mem _ hbrmem
  have hcalc : mkPropPref (propScores (analyze_territory_mapping (r1 :: restLog))
      "border_radius") = PropPref.mk ["8px"] ["0px"] 1 := by
    rw [scenario_propScores r1 restLog hrec]
    decide
  rw [hcalc] at hgoal
  exact hgoal

/-- Rules of a surviving aggregated property occur in the synthesis output,
for some value of the global counter. -/
theorem synthGo_mem_of_agg (sid : Int) (mc : ℚ) (prop : String) (data : PropPref)
    (agg : List (String × PropPref)) (hmem : (prop, data) ∈ agg)
    (hconf : ¬ data.confidence < mc) :
    ∀ counter, ∃ c, ∀ rule ∈ (synthProp sid c prop data).1,
      rule ∈ synthGo sid mc counter agg := by
  induction agg with
  | nil => cases hmem
  | cons pd rest ih =>
    intro counter
    obtain ⟨prop2, data2⟩ := pd
    rcases List.mem_cons.mp hmem with hh | hr
    · obtain ⟨hp, hd⟩ := Prod.mk.injEq _ _ _ _ |>.mp hh
      subst hp
      subst hd
      refine ⟨counter, fun r hrr => ?_⟩
      simp only [synthGo, if_neg hconf]
      exact List.mem_append_left _ hrr
    · by_cases h2 : data2.confidence < mc
      · obtain ⟨c, hc⟩ := ih hr counter
        refine ⟨c, fun r hrr => ?_⟩
        simp only [synthGo, if_pos h2]
        exact hc r hrr
      · obtain ⟨c, hc⟩ := ih hr (synthProp sid counter prop2 data2).2
        refine ⟨c, fun r hrr => ?_⟩
        simp only [synthGo, if_neg h2]
        exact List.mem_append_right _ (hc r hrr)

/-- The rule emitted for the first preferred scalar value of a property. -/
theorem synthProp_first_rule (sid : Int) (c : Nat) (prop best : String)
    (data : PropPref) (tl : List String)
    (hpref : data.preferred_values = best :: tl)
    (hdec : decompose_complex_value best prop = none) :
    ∃ rule ∈ (synthProp sid c prop data).1,
      rule.property = prop ∧ rule.operator = "=" ∧
      rule.value = pyJsonDumps (PyVal.pstr best) ∧ rule.source = "extracted" ∧
      rule.confidence = data.confidence := by
  have hpairs : prefPairsOf prop data = [(prop, PyVal.pstr best)] := by
    unfold prefPairsOf
    rw [hpref]
    simp only [hdec]
  refine ⟨(SynthRule.mk sid
      (rulePrefix (infer_component_type prop) ++ "-" ++ pad3 (c + 1))
      (infer_component_type prop) prop "=" (pyJsonDumps (PyVal.pstr best))
      "warning" data.confidence "extracted"
      (generate_rule_message prop "=" (PyVal.pstr best) (infer_component_type prop))),
    ?_, rfl, rfl, rfl, rfl, rfl⟩
  unfold synthProp
  apply List.mem_append_left
  rw [hpairs]
  simp [emitRules]

/-- C6 (amended): for every comparison log of at least 6 legacy records, each
with a definite choice, whose chosen style map carries
`border_radius = "8px"` and whose rejected style map carries
`border_radius = "0px"` (style maps well-formed as Python dicts: distinct keys
and `=`-free property names), `synthesize_rules_from_patterns` emits a rule
with property `border_radius`, operator `"="`, value `"\"8px\""` — the JSON
serialization of `8px` — source `extracted`, and confidence ≥ 0.65. -/
theorem scenario_a_synthesizes_border_radius_rule
    (comparison_results : List ComparisonResult) (session_id : Int)
    (hlen : 6 ≤ comparison_results.length)
    (hrec : ∀ r ∈ comparison_results, r.question_responses = none ∧
      (r.choice = "a" ∨ r.choice = "b") ∧
      ("border_radius", "8px") ∈ chosenStyles r ∧
      ("border_radius", "0px") ∈ rejectedStyles r ∧
      (r.option_a_styles.map Prod.fst).Nodup ∧
      (r.option_b_styles.map Prod.fst).Nodup ∧
      ∀ pv ∈ r.option_a_styles ++ r.option_b_styles, '=' ∉ pv.1.data) :
    ∃ rule ∈ synthesize_rules_from_patterns comparison_results session_id (6/10),
      rule.property = "border_radius" ∧ rule.operator = "=" ∧
      rule.value = "\"8px\"" ∧ rule.source = "extracted" ∧
      (0.65 : ℚ) ≤ rule.confidence := by
  obtain ⟨r1, restLog, hsplit⟩ : ∃ r1 restLog, comparison_results = r1 :: restLog := by
    cases comparison_results with
    | nil => simp at hlen
    | cons a b => exact ⟨a, b, rfl⟩
  subst hsplit
  have hagg := scenario_aggregate_mem r1 restLog hrec
  have hconf : ¬ (PropPref.mk ["8px"] ["0px"] (1 : ℚ)).confidence < 6/10 := by
    show ¬ (1 : ℚ) < 6/10
    norm_num
  obtain ⟨c, hsub⟩ := synthGo_mem_of_agg session_id (6/10) "border_radius"
    (PropPref.mk ["8px"] ["0px"] 1) _ hagg hconf 0
  obtain ⟨rule, hrmem, hp, ho, hv, hs, hcf⟩ := synthProp_first_rule session_id c
    "border_radius" "8px" (PropPref.mk ["8px"] ["0px"] 1) [] rfl (by decide)
  refine ⟨rule, hsub rule hrmem, hp, ho, ?_, hs, ?_⟩
  · rw [hv]
    decide
  · rw [hcf]
    show (0.65 : ℚ) ≤ 1
    norm_num

/-- Witness for C6 (amended) at the concrete six-record Scenario-A log. -/
theorem scenario_a_synthesizes_border_radius_rule_witness :
    ∃ rule ∈ synthesize_rules_from_patterns c6Log 1 (6/10),
      rule.property = "border_radius" ∧ rule.operator = "=" ∧
      rule.value = "\"8px\"" ∧ rule.source = "extracted" ∧
      (0.65 : ℚ) ≤ rule.confidence :=
  scenario_a_synthesizes_border_radius_rule c6Log 1 (by decide) (by decide)

/-- C6 counterexample: on the concrete six-record Scenario-A log the emitted
`border_radius` rule's `value` field is the JSON-serialized string `"8px"`
(with quotation marks, six characters) — no emitted rule has the bare value
`8px`, because `synthesize_rules_from_patterns` stores
`json.dumps(best_preferred)`. -/
theorem border_radius_rule_value_counterexample :
    ((synthesize_rules_from_patterns c6Log 1 (6/10)).map
      (fun r => (r.property, r.operator, r.value, r.source))) =
      [("border_radius", "=", "\"8px\"", "extracted"),
       ("border_radius", "!=", "\"0px\"", "extracted")] ∧
    (synthesize_rules_from_patterns c6Log 1 (6/10)).all
      (fun r => decide (¬ r.value = "8px")) = true :=
  ⟨by decide, by decide⟩
